import Mathlib

/-!
# Verification of the BPS series-extraction core (`source/parse_series.py`)

This file gives a shallow embedding, in Lean 4, of the table-extraction and
semantic-normalization engine of the PRACT1-BPS repository
(`src/source/parse_series.py`), together with theorems settling the frozen
claims about it.

Modelling conventions:
* pandas cell values are modelled by `BPS.Cell`: a rational number, a string,
  or a null (`NaN`/`NaT`/`None`).  Numeric values use `ℚ` (machine floats are
  modelled as exact rationals; none of the verified claims depends on
  floating-point rounding).
* a pandas `DataFrame` is modelled by `BPS.Table` (ordered column labels plus
  rows of cells; short rows read as null, like pandas' `NaN` padding), and for
  the per-document mappers by `BPS.NamedTable` (ordered labelled columns,
  duplicate labels allowed).
* the outcomes of external library reads (`pd.read_excel`, `pd.read_html`,
  `xlrd`, `pd.read_csv`, BeautifulSoup) are *oracle parameters*: the embedded
  reader is a function of an arbitrary `ReadOracles` value describing what the
  libraries returned, so theorems about the reader quantify over every
  possible library behaviour.
* string processing is done on `List Char` with structurally recursive
  functions, so that every definition evaluates by `decide`/`rfl`.
-/

namespace BPS

/-! ## Characters and strings

Helpers mirroring the Python string operations used by the source
(`str.strip`, `str.lower`, substring test, `str.replace`, `re.search` for the
concrete patterns appearing in the source). -/

/-- Whitespace test used by `str.strip` (ASCII whitespace, which is all the
source data contains). -/
def isWs (c : Char) : Bool :=
  c = ' ' ∨ c = '\t' ∨ c = '\n' ∨ c = '\r'

/-- `str.strip` on a character list. -/
def trimL (cs : List Char) : List Char :=
  ((cs.dropWhile isWs).reverse.dropWhile isWs).reverse

/-- `str.strip` on strings. -/
def pyStrip (s : String) : String := ⟨trimL s.data⟩

/-- `str.lower` (ASCII case folding; the lowercase Spanish letters the data
uses, such as `ú`, are already lowercase). -/
def pyLower (s : String) : String := ⟨s.data.map Char.toLower⟩

/-- Substring containment (Python's `needle in s`), on char lists. -/
def containsL (needle : List Char) : List Char → Bool
  | [] => needle.isEmpty
  | c :: rest => needle.isPrefixOf (c :: rest) || containsL needle rest

/-- Python's `needle in s` for strings. -/
def strContains (s needle : String) : Bool :=
  containsL needle.data s.data

/-- One fuel-indexed step of `str.replace` (replace every occurrence of
`needle` by `repl`); fuel bounds the number of consumed characters. -/
def replaceAllAux (needle repl : List Char) : Nat → List Char → List Char
  | 0, s => s
  | _ + 1, [] => []
  | fuel + 1, c :: rest =>
    if needle ≠ [] ∧ needle.isPrefixOf (c :: rest) then
      repl ++ replaceAllAux needle repl fuel ((c :: rest).drop needle.length)
    else
      c :: replaceAllAux needle repl fuel rest

/-- Python's `str.replace(needle, repl)` (all occurrences). -/
def pyReplace (s needle repl : String) : String :=
  ⟨replaceAllAux needle.data repl.data s.data.length s.data⟩

/-- Word characters for the regex `\b` boundary (Python `\w`): ASCII
alphanumerics, underscore, and the accented Spanish letters appearing in the
source's column labels. -/
def isWordChar (c : Char) : Bool :=
  c.isAlpha ∨ c.isDigit ∨ c = '_' ∨
    c = 'á' ∨ c = 'é' ∨ c = 'í' ∨ c = 'ó' ∨ c = 'ú' ∨ c = 'ñ'

/-- Auxiliary scan for `containsWord`: `prev` is the character preceding the
current position (`none` at the start of the string). -/
def containsWordAux (w : List Char) : Option Char → List Char → Bool
  | prev, s =>
    match s with
    | [] => false
    | c :: rest =>
      (okBefore prev ∧ w.isPrefixOf (c :: rest) ∧ okAfter ((c :: rest).drop w.length))
        || containsWordAux w (some c) rest
where
  okBefore : Option Char → Bool
    | none => true
    | some p => ¬ isWordChar p
  okAfter : List Char → Bool
    | [] => true
    | c :: _ => ¬ isWordChar c

/-- `re.search(r"\b<w>\b", s)` for a literal word `w` consisting of word
characters. -/
def containsWord (s w : String) : Bool :=
  containsWordAux w.data none s.data

/-- Split a char list on a separator character (Python `str.split(sep)`). -/
def splitOnCharL (sep : Char) : List Char → List (List Char)
  | [] => [[]]
  | c :: rest =>
    let r := splitOnCharL sep rest
    if c = sep then [] :: r
    else
      match r with
      | [] => [[c]]
      | g :: gs => (c :: g) :: gs

/-! ## Numbers: the model of `pd.to_numeric` on a single value -/

/-- Numeric value of a non-empty digit list (most significant digit first). -/
def digitsVal : List Char → Nat
  | [] => 0
  | c :: rest => (digitsVal rest) + c.toNat.sub 48 * 10 ^ rest.length

/-- The rational `n / 10 ^ k`: the value of a decimal literal with `k` digits
after the point.  Kept as an applied function so that parsed values can be
compared syntactically (by `rfl`) without evaluating rational arithmetic. -/
def decFrac (n k : Nat) : ℚ := (n : ℚ) / 10 ^ k

/-- Parse an unsigned Python float literal `digits [ "." digits ]` (at least
one digit overall; exponents are not used by the source data and are not
modelled). -/
def pyUnsigned (cs : List Char) : Option ℚ :=
  let intPart := cs.takeWhile Char.isDigit
  let rest := cs.dropWhile Char.isDigit
  match rest with
  | [] => if intPart.isEmpty then none else some (digitsVal intPart : ℚ)
  | '.' :: frac =>
    if frac.all Char.isDigit && (!intPart.isEmpty || !frac.isEmpty) then
      some (decFrac (digitsVal intPart * 10 ^ frac.length + digitsVal frac) frac.length)
    else none
  | _ => none

/-- Model of `pd.to_numeric` on one string (Python `float(...)` after
stripping whitespace): optional sign, then an unsigned float literal. -/
def pyParseNum (s : String) : Option ℚ :=
  match trimL s.data with
  | '-' :: rest => (pyUnsigned rest).map (fun q => -q)
  | '+' :: rest => pyUnsigned rest
  | cs => pyUnsigned cs

/-! ## Cells and dates -/

/-- A pandas cell: a number, a string, or a null (`NaN`). -/
inductive Cell where
  | num (q : ℚ)
  | str (s : String)
  | null
deriving DecidableEq, Repr

/-- `pd.notna` on a cell. -/
def Cell.notna : Cell → Bool
  | .null => false
  | _ => true

/-- Python `str(...)` of a cell as applied by `.astype(str)` (`NaN` prints as
`"nan"`).  Rational numbers print as `num` or `num/den`; none of the claims
depends on the printed form of a numeric cell. -/
def Cell.pyStr : Cell → String
  | .num q => if q.den = 1 then toString q.num else toString q.num ++ "/" ++ toString q.den
  | .str s => s
  | .null => "nan"

/-- Stringification used by `_promote_row_with_fecha_as_header`
(`df.astype(object).where(pd.notna(df), "").astype(str)`): nulls become the
empty string. -/
def Cell.pyStrEmpty : Cell → String
  | .null => ""
  | c => c.pyStr

/-- `pd.to_numeric(·, errors="coerce")` on one cell. -/
def directParse : Cell → Option ℚ
  | .num q => some q
  | .str s => pyParseNum s
  | .null => none

/-- A calendar date (proleptic Gregorian). -/
structure Date where
  y : Int
  m : Nat
  d : Nat
deriving DecidableEq, Repr

/-- Days from 1970-01-01 to the given civil date (Hinnant's
`days_from_civil`; all divisions below act on non-negative operands for the
years this pipeline can produce, where every integer-division convention
agrees). -/
def daysFromCivil (y : Int) (m d : Nat) : Int :=
  let y' : Int := y - (if m ≤ 2 then 1 else 0)
  let era : Int := (if 0 ≤ y' then y' else y' - 399) / 400
  let yoe : Int := y' - era * 400
  let mp : Int := if 2 < m then (m : Int) - 3 else (m : Int) + 9
  let doy : Int := (153 * mp + 2) / 5 + (d : Int) - 1
  let doe : Int := yoe * 365 + yoe / 4 - yoe / 100 + doy
  era * 146097 + doe - 719468

/-- Civil date of the day `z` days after 1970-01-01 (Hinnant's
`civil_from_days`). -/
def civilFromDays (z0 : Int) : Date :=
  let z : Int := z0 + 719468
  let era : Int := (if 0 ≤ z then z else z - 146096) / 146097
  let doe : Int := z - era * 146097
  let yoe : Int := (doe - doe / 1460 + doe / 36524 - doe / 146096) / 365
  let y : Int := yoe + era * 400
  let doy : Int := doe - (365 * yoe + yoe / 4 - yoe / 100)
  let mp : Int := (5 * doy + 2) / 153
  let d : Int := doy - (153 * mp + 2) / 5 + 1
  let m : Int := if mp < 10 then mp + 3 else mp - 9
  ⟨y + (if m ≤ 2 then 1 else 0), m.toNat, d.toNat⟩

/-- Excel day serial (epoch 1899-12-30) of a civil date, via `daysFromCivil`
(days from 1899-12-30 to 1970-01-01 = 25569). -/
def serialOfCivil (y : Int) (m d : Nat) : Int :=
  daysFromCivil y m d + 25569

/-- Civil date of an Excel day serial. -/
def dateOfSerial (n : Int) : Date :=
  civilFromDays (n - 25569)

/-! ## `_to_num`: numeric normalization (parse_series.py lines 101-129) -/

/-- One character of the locale cleanup applied by the re-parse branch of
`_to_num`: em dash, minus sign, en dash and hyphen-minus are removed
(`.str.replace(r"—|−|–|-", "")`), the thousands separator `.` is
removed, and the decimal `,` becomes `.`. -/
def cleanseChar (c : Char) : Option Char :=
  if c = '—' ∨ c = '−' ∨ c = '–' ∨ c = '-' ∨ c = '.' then none
  else if c = ',' then some '.' else some c

/-- The locale cleanup of `_to_num`'s re-parse branch on a whole string. -/
def cleanse (s : String) : String :=
  ⟨s.data.filterMap cleanseChar⟩

/-- Count of nulls among the original cells (`pd.Series(series).isna()`). -/
def nullCount (col : List Cell) : Nat :=
  (col.filter (fun c => ¬ c.notna)).length

/-- Count of nulls in a parsed column. -/
def noneCount (l : List (Option ℚ)) : Nat :=
  (l.filter Option.isNone).length

/-- `_to_num`: direct numeric parse of the column; if that raised the null
rate (the columns have equal length, so comparing rates is comparing counts),
re-parse every cell's string form after the locale cleanup. -/
def toNum (col : List Cell) : List (Option ℚ) :=
  let direct := col.map directParse
  if nullCount col < noneCount direct then
    col.map (fun c => pyParseNum (cleanse c.pyStr))
  else direct

/-! ## `_norm_mes`: month bucketing (lines 131-151) -/

/-- A month bucket: year and month of the first-of-month timestamp produced
by `to_period("M").to_timestamp()`. -/
def Date.month (d : Date) : Int × Nat := (d.y, d.m)

/-- `_norm_mes` on rows `(date?, payload)`: floor each date to its month and
drop the rows with no resolvable date (`dropna(subset=["fecha"])`).  No
sorting is performed by the source. -/
def normMes {α : Type} (rows : List (Option Date × α)) :
    List ((Int × Nat) × α) :=
  rows.filterMap (fun p => p.1.map (fun d => (d.month, p.2)))

/-! ## `_fix_excel_serial_dates`: mixed date decoding (lines 176-194) -/

/-- The twelve Spanish month abbreviations and their English replacements
(the `replacements` dict of `_fix_excel_serial_dates`, in insertion order). -/
def monthReplacements : List (String × String) :=
  [("ene", "jan"), ("feb", "feb"), ("mar", "mar"), ("abr", "apr"),
   ("may", "may"), ("jun", "jun"), ("jul", "jul"), ("ago", "aug"),
   ("sep", "sep"), ("oct", "oct"), ("nov", "nov"), ("dic", "dec")]

/-- Apply the Spanish→English month-abbreviation substitutions in order. -/
def applyMonthReplacements (s : String) : String :=
  monthReplacements.foldl (fun acc p => pyReplace acc p.1 p.2) s

/-- English three-letter month abbreviations with their month numbers. -/
def monthAbbrevs : List (String × Nat) :=
  [("jan", 1), ("feb", 2), ("mar", 3), ("apr", 4), ("may", 5), ("jun", 6),
   ("jul", 7), ("aug", 8), ("sep", 9), ("oct", 10), ("nov", 11), ("dec", 12)]

/-- Model of `pd.to_datetime(·, errors="coerce")` on the translated strings
of these documents.  Without an explicit format (the source passes none),
pandas can infer a format only for a month abbreviation next to a
**four-digit** year (`"%b-%Y"`), which parses to the first day of that month
when it lies inside the `Timestamp` range.  For the two-digit `"mmm-yy"`
form no format is inferable, and the dateutil fallback reads the two-digit
token as a day of month with no year; the missing year comes from the
default `datetime(1, 1, 1)`, which is outside the `Timestamp` range, so such
cells are coerced to `NaT` (`none`).  Other shapes in these documents fail
to parse as well. -/
def parseMonText (s : String) : Option Date :=
  match splitOnCharL '-' s.data with
  | [a, b] =>
    match (monthAbbrevs.lookup (⟨a⟩ : String)) with
    | none => none
    | some m =>
      if b.length = 4 ∧ b.all Char.isDigit then
        if serialOfCivil 1677 9 21 ≤ serialOfCivil (digitsVal b : Int) m 1
            ∧ serialOfCivil (digitsVal b : Int) m 1 ≤ serialOfCivil 2262 4 11 then
          some ⟨(digitsVal b : Int), m, 1⟩
        else none
      else none
  | _ => none

/-- The serial-number branch of `_fix_excel_serial_dates`
(`pd.to_datetime(pd.to_numeric(·), unit="D", origin="1899-12-30")`): the cell
must parse as a number whose day serial lands inside pandas' `Timestamp`
range (serials `-81183 .. 132320`, i.e. 1677-09-21 .. 2262-04-11); fractional
serials keep the month of their floor. -/
def serialPath (c : Cell) : Option Date :=
  match directParse c with
  | none => none
  | some q =>
    let n := ⌊q⌋
    if serialOfCivil 1677 9 21 ≤ n ∧ n ≤ serialOfCivil 2262 4 11 then
      some (dateOfSerial n)
    else none

/-- The text branch of `_fix_excel_serial_dates`: stringify, strip, lower,
translate the Spanish month abbreviations, and parse. -/
def textPath (c : Cell) : Option Date :=
  parseMonText (applyMonthReplacements (pyLower (pyStrip c.pyStr)))

/-- `_fix_excel_serial_dates` on one cell:
`dates_from_num.fillna(dates_from_str)` — the serial-number result is used
whenever it exists, else the text result. -/
def fixExcelSerialDates (c : Cell) : Option Date :=
  match serialPath c with
  | some d => some d
  | none => textPath c

/-- Month (year, month-number) to which date normalization sends a cell. -/
def canonMonth (c : Cell) : Option (Int × Nat) :=
  (fixExcelSerialDates c).map Date.month

/-! ## `_pick_best_series`: duplicate-label disambiguation (lines 196-215) -/

/-- The value of `df[label]` in pandas: a single series when the label is
unique, a multi-column frame when it is duplicated. -/
inductive Sel where
  | one (c : List Cell)
  | many (cs : List (List Cell))
deriving DecidableEq, Repr

/-- Score of a candidate sub-column: number of cells that survive
`pd.to_numeric(·, errors="coerce")` (`s.notna().sum()`). -/
def numScore (c : List Cell) : Nat :=
  (c.filter (fun x => (directParse x).isSome)).length

/-- The positional argmax loop of `_pick_best_series` (`best_score` starts at
`-1`, updated on strictly greater scores). -/
def pickMany : List (List Cell) → Int → Option (List Cell) → Option (List Cell)
  | [], _, best => best
  | c :: rest, bestScore, best =>
    if bestScore < (numScore c : Int) then pickMany rest (numScore c) (some c)
    else pickMany rest bestScore best

/-- `_pick_best_series`: a frame (duplicated labels) yields the sub-column
with the most numeric cells; a series is returned unchanged.  `none` models
the `IndexError` of `obj.iloc[:, -1]` on a zero-column frame. -/
def pickBestSeries : Sel → Option (List Cell)
  | .one c => some c
  | .many cs => pickMany cs (-1) none

/-- The `best_score` corresponding to a stored best candidate (`-1` before
any candidate has been seen). -/
def scoreOf : Option (List Cell) → Int
  | none => -1
  | some b => (numScore b : Int)

/-! ## Tables

A pandas `DataFrame`: ordered column labels plus rows of cells.  A row shorter
than the label list reads as null in the missing positions (pandas' `NaN`
padding). -/

structure Table where
  cols : List String
  rows : List (List Cell)
deriving DecidableEq, Repr

/-- Number of columns (`df.shape[1]`). -/
def Table.ncols (t : Table) : Nat := t.cols.length

/-- Cell of a row at column position `j` (missing positions are null). -/
def cellAt (r : List Cell) (j : Nat) : Cell := r.getD j .null

/-- `df.iloc[i]` as a list of cells over the current columns. -/
def Table.rowAt (t : Table) (i : Nat) : List Cell :=
  (List.range t.ncols).map (cellAt (t.rows.getD i []))

/-- Does column `j` hold at least one non-null value?
(`df.notna().mean() > 0.0` for that column; on a zero-row frame the mean is
`NaN` and the comparison is false, i.e. no column qualifies.) -/
def Table.colNonEmpty (t : Table) (j : Nat) : Bool :=
  t.rows.any (fun r => (cellAt r j).notna)

/-- Restrict a table to the column positions satisfying `keep`. -/
def selectCols (t : Table) (keep : Nat → Bool) : Table :=
  let idxs := (List.range t.ncols).filter keep
  ⟨idxs.map (fun j => t.cols.getD j ""),
   t.rows.map (fun r => idxs.map (cellAt r))⟩

/-- `df.loc[:, df.notna().mean() > 0.0]`: drop the all-null columns. -/
def dropEmptyCols (t : Table) : Table :=
  selectCols t t.colNonEmpty

/-- Is a row non-null in at least one of the table's columns? -/
def Table.rowNonEmpty (t : Table) (r : List Cell) : Bool :=
  (List.range t.ncols).any (fun j => (cellAt r j).notna)

/-- `df.dropna(how="all").shape[0]`: number of rows holding at least one
non-null value. -/
def Table.nonEmptyRows (t : Table) : Nat :=
  (t.rows.filter t.rowNonEmpty).length

/-- `_looks_unnamed_columns` (threshold 0.9 at this call site): the fraction
of columns labelled `Unnamed:*` or blank reaches 9/10. -/
def looksUnnamed (t : Table) : Bool :=
  let cnt := (t.cols.filter
    (fun c => c.startsWith "Unnamed:" || pyStrip c = "")).length
  9 * max 1 t.cols.length ≤ 10 * cnt

/-! ## `_promote_row_with_fecha_as_header` (lines 159-174) -/

/-- Does row `i` of the table contain a cell whose stripped, lowered string
form equals `"fecha"`? -/
def rowHasFecha (t : Table) (i : Nat) : Bool :=
  (t.rowAt i).any (fun c => pyLower (pyStrip c.pyStrEmpty) = "fecha")

/-- Scan rows `i, i+1, …` (at most `fuel` of them) for the first one
containing a `"fecha"` cell. -/
def scanFecha (t : Table) : Nat → Nat → Option Nat
  | _, 0 => none
  | i, fuel + 1 =>
    if rowHasFecha t i then some i else scanFecha t (i + 1) fuel

/-- Header derived from row `i`: each stripped cell string, with blanks
replaced by `col_<j>`. -/
def headerFromRow (t : Table) (i : Nat) : List String :=
  ((t.rowAt i).map (fun c => pyStrip c.pyStrEmpty)).mapIdx
    (fun j s => if s = "" then "col_" ++ toString j else s)

/-- `_promote_row_with_fecha_as_header`: find the first row among the first
`maxScan` containing a `"fecha"` cell; promote it to header, keep only the
rows below it, and drop the columns whose remaining values are all null.
Returns `none` when no such row exists in the window. -/
def promoteFechaHeader (t : Table) (maxScan : Nat) : Option Table :=
  match scanFecha t 0 (min maxScan t.rows.length) with
  | none => none
  | some i => some (dropEmptyCols ⟨headerFromRow t i, t.rows.drop (i + 1)⟩)

/-! ## `_try_xlrd_manual` (lines 221-290)

The outcome of `xlrd.open_workbook` + sheet selection is an oracle value: the
selected sheet's cell grid (`none` when opening or sheet lookup failed).
xlrd reports a rectangular grid of `sh.nrows × sh.ncols` cells; empty cells
are empty strings, not nulls. -/

structure XlrdSheet where
  ncols : Nat
  rows : List (List Cell)
deriving DecidableEq, Repr

/-- The fixed candidate header rows tried by `_try_xlrd_manual`
(`header_candidates = (7, 6, 5, 4, 0, 1, 2, 3)`). -/
def xlrdHeaderCandidates : List Nat := [7, 6, 5, 4, 0, 1, 2, 3]

/-- One attempt of `_try_xlrd_manual` at header row `hdr`: build the table
with that row as header (stripped strings, blanks renamed `col_<i>`), drop
all-null columns, and accept it when it has more than one non-empty data row
and at least two columns; when the accepted table still looks unnamed, try
`"Fecha"` promotion and prefer the promoted table if it passes the same
usability test. -/
def xlrdAttempt (sh : XlrdSheet) (hdr : Nat) : Option Table :=
  if sh.rows.length ≤ hdr then none
  else
    let headerRow := (List.range sh.ncols).map (cellAt (sh.rows.getD hdr []))
    let cols := (headerRow.map (fun c => pyStrip c.pyStr)).mapIdx
      (fun i h => if h = "" then "col_" ++ toString i else h)
    let data := dropEmptyCols ⟨cols, sh.rows.drop (hdr + 1)⟩
    if 1 < data.nonEmptyRows ∧ 2 ≤ data.ncols then
      if looksUnnamed data then
        match promoteFechaHeader data 20 with
        | some p => if 1 < p.nonEmptyRows ∧ 2 ≤ p.ncols then some p else some data
        | none => some data
      else some data
    else none

/-- First successful value of `f` along a list. -/
def firstSome {α β : Type} (f : α → Option β) : List α → Option β
  | [] => none
  | a :: rest =>
    match f a with
    | some b => some b
    | none => firstSome f rest

/-- `_try_xlrd_manual`: give up when the workbook or sheet could not be
opened, when the sheet has no rows, or fewer than two columns; otherwise
return the first usable header attempt in the fixed candidate order. -/
def tryXlrdManual (sheet : Option XlrdSheet) : Option Table :=
  match sheet with
  | none => none
  | some sh =>
    if sh.rows.isEmpty || sh.ncols < 2 then none
    else firstSome (xlrdAttempt sh) xlrdHeaderCandidates

/-! ## `_read_table_like` (lines 318-600)

The reader is embedded as a function of an oracle describing what the
external libraries (`pandas.ExcelFile`/`read_excel`, `xlrd`, `read_html`,
BeautifulSoup, `read_csv`) returned for the given byte buffer, so theorems
about it hold for every possible library behaviour. -/

/-- A sheet selector: a name, or a 0-based index. -/
inductive SheetSel where
  | name (s : String)
  | idx (n : Nat)
deriving DecidableEq, Repr

/-- Sheet-priority heuristic of `_try_read_excel`
(ALTAS > EMISIÓN > PROMEDIO > rest). -/
def sheetScore (nm : String) : Nat :=
  let low := pyLower nm
  if strContains low "altas" then 0
  else if strContains low "emisión" || strContains low "emision" then 1
  else if strContains low "promedio" then 2
  else 3

/-- Insert into a list sorted by `key`, after all entries of equal key
(the stability of Python's `sorted`). -/
def insertByKey {α : Type} (key : α → Nat) (a : α) : List α → List α
  | [] => [a]
  | b :: bs => if key a < key b then a :: b :: bs else b :: insertByKey key a bs

/-- Stable sort by a numeric key (Python's `sorted(…, key=…)`). -/
def stableSortByKey {α : Type} (key : α → Nat) (l : List α) : List α :=
  l.foldl (fun acc a => insertByKey key a acc) []

/-- Deduplicate keeping first occurrences (the `headers_a_probar_final`
loop). -/
def dedupKeepFirst (seen : List Nat) : List Nat → List Nat
  | [] => []
  | x :: xs =>
    if seen.contains x then dedupKeepFirst seen xs
    else x :: dedupKeepFirst (x :: seen) xs

/-- Candidate header rows tried by `_try_read_excel`, the hint (if any)
first. -/
def headersToTry (hint : Option Nat) : List Nat :=
  dedupKeepFirst [] (match hint with
    | some h => [h, 6, 7, 5, 4, 0, 1, 2, 3]
    | none => [6, 7, 5, 4, 0, 1, 2, 3])

/-- Per-attempt cleanup of `_try_read_excel`: drop all-null columns, then try
`"Fecha"` header promotion when the labels look unnamed. -/
def cleanAttempt (t : Table) : Table :=
  let t1 := dropEmptyCols t
  if looksUnnamed t1 then
    match promoteFechaHeader t1 20 with
    | some p => p
    | none => t1
  else t1

/-- Usability score of an attempt (`(cols_ok, rows_ok)`). -/
def attemptScore (t : Table) : Nat × Nat := (t.ncols, t.nonEmptyRows)

/-- Python tuple comparison `score > best_score`, where a missing best plays
`(-1, -1)` (any real score beats it). -/
def betterThan (t : Table) : Option Table → Bool
  | none => true
  | some b =>
    let s := attemptScore t
    let sb := attemptScore b
    sb.1 < s.1 || (s.1 = sb.1 && sb.2 < s.2)

/-- The sheet × header loop of `_try_read_excel`: accept the first attempt
with at least 2 columns and more than 1 non-empty row; otherwise remember the
best-scored attempt and, after the loop, return it only if it has at least 2
columns and at least 1 non-empty row. -/
def excelGo (read : SheetSel → Nat → Option Table) :
    List (SheetSel × Nat) → Option Table → Option Table
  | [], best =>
    match best with
    | some b => if 2 ≤ b.ncols ∧ 1 ≤ b.nonEmptyRows then some b else none
    | none => none
  | (s, h) :: rest, best =>
    match read s h with
    | none => excelGo read rest best
    | some t0 =>
      let t := cleanAttempt t0
      if 2 ≤ t.ncols ∧ 1 < t.nonEmptyRows then some t
      else excelGo read rest (if betterThan t best then some t else best)

/-- The oracle for one invocation of the reader: what each external library
returned for this byte buffer. -/
structure ReadOracles where
  /-- did `pd.ExcelFile(bio, engine=…)` open without raising? -/
  excelOpens : Bool
  /-- `xls.sheet_names` -/
  sheetNames : List String
  /-- result of `pd.read_excel(bio, sheet_name=s, header=h)`; `none` models a
  raised exception -/
  readExcel : SheetSel → Nat → Option Table
  /-- grid of the sheet `_try_xlrd_manual` selects; `none` models a failed
  `open_workbook` or sheet lookup -/
  xlrdSheet : Option XlrdSheet
  /-- tables of `pd.read_html`; `none` models a raised exception -/
  htmlTables : Option (List Table)
  /-- non-empty-cell rows of the largest `<table>` found by BeautifulSoup;
  `none` when no table exists -/
  bs4Rows : Option (List (List String))
  /-- result of `pd.read_csv(bio, sep=…)`; `none` models a raised exception -/
  readCsv : String → Option Table

/-- `_try_read_excel`: enumerate the sheets to try (the selector alone, or
all sheets in priority order) and the candidate header rows, and run the
accept/best loop. -/
def tryReadExcel (o : ReadOracles) (sheet : Option SheetSel)
    (hint : Option Nat) : Option Table :=
  if !o.excelOpens then none
  else
    let sheetsToTry : List SheetSel :=
      match sheet with
      | some s => [s]
      | none => (stableSortByKey sheetScore o.sheetNames).map SheetSel.name
    let pairs := sheetsToTry.flatMap (fun s => (headersToTry hint).map ((s, ·)))
    excelGo o.readExcel pairs none

/-- First element attaining the maximal value of `f` (Python's `max`). -/
def firstMaxBy (f : Table → Nat) : List Table → Option Table
  | [] => none
  | t :: ts =>
    match firstMaxBy f ts with
    | none => some t
    | some b => if f b > f t then some b else some t

/-- `_try_read_html`: pick the widest parsed table, repair its header if it
looks unnamed, and require > 1 non-empty rows and ≥ 2 columns. -/
def tryReadHtml (tables : Option (List Table)) : Option Table :=
  match tables with
  | none => none
  | some [] => none
  | some (t :: ts) =>
    match firstMaxBy Table.ncols (t :: ts) with
    | none => none
    | some df0 =>
      let df := if looksUnnamed df0 then (promoteFechaHeader df0 20).getD df0 else df0
      if df.nonEmptyRows ≤ 1 || df.ncols < 2 then none else some df

/-- `_try_bs4_table`: rebuild a table from the extracted rows (first row as
header, blanks renamed `col_<i>`).  A data row wider than the header makes
`pd.DataFrame(data, columns=…)` raise, which propagates out of the reader
(`Except.error`); shorter rows are padded with nulls. -/
def tryBs4Table (rows : Option (List (List String))) :
    Except String (Option Table) :=
  match rows with
  | none => .ok none
  | some [] => .ok none
  | some (header :: data) =>
    let cols := header.mapIdx (fun i c => if c = "" then "col_" ++ toString i else c)
    if data.any (fun r => cols.length < r.length) then
      .error "DataFrame: passed data had more columns than column names"
    else
      let df0 : Table := ⟨cols, data.map (fun r => r.map Cell.str)⟩
      let df := if looksUnnamed df0 then (promoteFechaHeader df0 20).getD df0 else df0
      if df.nonEmptyRows ≤ 1 || df.ncols < 2 then .ok none else .ok (some df)

/-- `_try_read_csv`: try the separators in order, accepting the first table
with > 1 non-empty rows and ≥ 2 columns. -/
def tryReadCsv (readCsv : String → Option Table) : Option Table :=
  firstSome
    (fun sep =>
      match readCsv sep with
      | none => none
      | some df => if 1 < df.nonEmptyRows ∧ 2 ≤ df.ncols then some df else none)
    [";", ",", "\t"]

/-- Content kind as computed by `_engine_from_ext_or_sniff` (`none` and
`"unknown"` are treated identically by the reader and share one variant). -/
inductive Kind where
  | xlsx | xls | html | text | unknown
deriving DecidableEq, Repr

/-- The HTML → BS4 → CSV fallback cascade shared by the spreadsheet, html and
unknown branches of `_read_table_like`. -/
def htmlCsvCascade (o : ReadOracles) (onExhausted : Except String Table) :
    Except String Table :=
  match tryReadHtml o.htmlTables with
  | some df => .ok df
  | none =>
    match tryBs4Table o.bs4Rows with
    | .error e => .error e
    | .ok (some df) => .ok df
    | .ok none =>
      match tryReadCsv o.readCsv with
      | some df => .ok df
      | none => onExhausted

/-- `_read_table_like`: the full strategy chain per content kind.  Errors
model the raised `RuntimeError`/`ValueError` (and a propagated `DataFrame`
constructor error from the BS4 strategy). -/
def readTableLike (o : ReadOracles) (kind : Kind) (sheet : Option SheetSel)
    (hint : Option Nat) : Except String Table :=
  match kind with
  | .xlsx | .xls =>
    match tryReadExcel o sheet hint with
    | some df => .ok df
    | none =>
      match tryXlrdManual o.xlrdSheet with
      | some df =>
        if 2 ≤ df.ncols then .ok df
        else htmlCsvCascade o (.error "No pude leer el contenido ni como Excel ni como HTML/CSV")
      | none =>
        htmlCsvCascade o (.error "No pude leer el contenido ni como Excel ni como HTML/CSV")
  | .html => htmlCsvCascade o (.error "HTML no legible como tabla")
  | .text =>
    match tryReadCsv o.readCsv with
    | some df => .ok df
    | none => .error "Texto plano sin formato tabular"
  | .unknown => htmlCsvCascade o (.error "Formato desconocido o no soportado")

/-! ## The semantic column mappers (`parse_desempleo` lines 640-782,
`parse_recaudacion` lines 819-893)

These operate on the cleaned table that the reader produced.  A table is a
list of labelled columns in order; duplicate labels are allowed (pandas keeps
them, and `df[label]` then yields a multi-column frame). -/

/-- A labelled table: ordered columns with (not necessarily unique) names. -/
def NamedTable : Type := List (String × List Cell)

/-- Insert-or-update for the `cols_low` dict: Python dict comprehension
keeps the first-occurrence position and the last-occurrence value. -/
def updateAssoc (k v : String) : List (String × String) → List (String × String)
  | [] => [(k, v)]
  | (k', v') :: rest =>
    if k' = k then (k', v) :: rest else (k', v') :: updateAssoc k v rest

/-- `cols_low = {str(c).lower(): c for c in df.columns}`. -/
def colsLow (t : NamedTable) : List (String × String) :=
  t.foldl (fun acc c => updateAssoc (pyLower c.1) c.1 acc) []

/-- `next((cols_low[c] for c in cols_low if p c), None)`. -/
def findFirstKey (p : String → Bool) (cl : List (String × String)) :
    Option String :=
  (cl.find? (fun kv => p kv.1)).map (·.2)

/-- The `find_col` helper: patterns are tried in order, each against the keys
of `cols_low` in order. -/
def findCol (pats : List (String → Bool)) (cl : List (String × String)) :
    Option String :=
  firstSome (fun p => findFirstKey p cl) pats

/-- The columns labelled exactly `label` (pandas `df[label]`). -/
def selectByLabel (t : NamedTable) (label : String) : List (List Cell) :=
  (t.filter (fun c => c.1 = label)).map (·.2)

/-- `df[label]` as a `Sel`: a series for a unique label, a frame for a
duplicated one, `none` for a `KeyError`. -/
def selLabel (t : NamedTable) (label : String) : Option Sel :=
  match selectByLabel t label with
  | [] => none
  | [c] => some (.one c)
  | cs => some (.many cs)

/-- `_to_num(df[label])` as called directly (without `_pick_best_series`):
`pd.to_numeric` raises on a multi-column frame. -/
def toNumSel : Sel → Except String (List (Option ℚ))
  | .one c => .ok (toNum c)
  | .many _ => .error "TypeError: to_numeric on a DataFrame"

/-- `_to_num(_pick_best_series(df[label]))`. -/
def toNumPick (s : Sel) : Except String (List (Option ℚ)) :=
  match pickBestSeries s with
  | some c => .ok (toNum c)
  | none => .error "IndexError"

/-- The Spanish month-abbreviation tokens of the date-column heuristic. -/
def monthTokens : List String :=
  ["ene", "feb", "mar", "abr", "may", "jun", "jul", "ago", "sep", "oct",
   "nov", "dic"]

/-- Scanner for the `\b(202\d|201\d)\b` alternative of the date-likeness
regex. -/
def yearTokenAux : Option Char → List Char → Bool
  | _, [] => false
  | prev, c :: rest =>
    (okBefore prev && checkAt (c :: rest)) || yearTokenAux (some c) rest
where
  okBefore : Option Char → Bool
    | none => true
    | some p => ! isWordChar p
  checkAt : List Char → Bool
    | '2' :: '0' :: y :: d :: after =>
      (y = '1' || y = '2') && d.isDigit &&
        (match after with
         | [] => true
         | a :: _ => ! isWordChar a)
    | _ => false

/-- Does a cell's string form look date-like
(`r"(?:\b(202\d|201\d)\b|ene|feb|…|dic)"`, case-insensitive)? -/
def cellDateLike (c : Cell) : Bool :=
  let s := pyLower c.pyStr
  yearTokenAux none s.data || monthTokens.any (fun m' => strContains s m')

/-- Resolve the date column: the caller's guess, else the first column whose
lowered name contains `"fecha"` or `"mes"`, else the first column when more
than 30% of its values look date-like (the string accessor used there raises
on an empty frame or a duplicated first label). -/
def resolveFechaCol (t : NamedTable) (cl : List (String × String))
    (guess : Option String) (failMsg : String) : Except String String :=
  match guess with
  | some g => .ok g
  | none =>
    match findFirstKey (fun c => strContains c "fecha" || strContains c "mes") cl with
    | some f => .ok f
    | none =>
      match t with
      | [] => .error "IndexError: no columns"
      | c0 :: _ =>
        match selectByLabel t c0.1 with
        | [col] =>
          if 3 * col.length < 10 * (col.filter cellDateLike).length then .ok c0.1
          else .error failMsg
        | _ => .error "AttributeError: .str on a DataFrame"

/-- The canonical output under construction: the date column plus the named
metric columns in insertion order. -/
structure DOut where
  fecha : List (Option Date)
  metrics : List (String × List (Option ℚ))
deriving DecidableEq, Repr

/-- `name in out.columns` (over the metric columns). -/
def DOut.hasCol (o : DOut) (nm : String) : Bool :=
  o.metrics.any (fun m' => m'.1 = nm)

/-- `out[name] = v` for a fresh metric name (every assignment in the source
is guarded so that it never overwrites an existing column). -/
def DOut.add (o : DOut) (nm : String) (v : List (Option ℚ)) : DOut :=
  { o with metrics := o.metrics ++ [(nm, v)] }

/-- `out[name]` for a present metric. -/
def DOut.getCol (o : DOut) (nm : String) : List (Option ℚ) :=
  ((o.metrics.find? (fun m' => m'.1 = nm)).map (·.2)).getD []

/-- `out[a].fillna(0) + out[b].fillna(0)`: elementwise sum with nulls read
as 0. -/
def zipFill0 (a b : List (Option ℚ)) : List (Option ℚ) :=
  List.zipWith (fun x y => some (x.getD 0 + y.getD 0)) a b

/-! Regex helpers for the metric patterns. -/

/-- `re.search(r"\baltas?\b", s)`. -/
def altasPat (s : String) : Bool :=
  containsWord s "altas" || containsWord s "alta"

/-- `re.search(r"\bbajas?\b", s)`. -/
def bajasPat (s : String) : Bool :=
  containsWord s "bajas" || containsWord s "baja"

/-- Scanner for `a.*b`: an occurrence of `a` with `b` somewhere after it. -/
def followedByAux (a b : List Char) : List Char → Bool
  | [] => false
  | c :: rest =>
    (a.isPrefixOf (c :: rest) && containsL b ((c :: rest).drop a.length))
      || followedByAux a b rest

/-- `re.search(r"fin.*contrato", s)`. -/
def finContratoPat (s : String) : Bool :=
  followedByAux "fin".data "contrato".data s.data

/-- Scanner for `\bw` (word-start, no trailing boundary), optionally
requiring that `avoid` does NOT occur after the match
(the `(?!.*avoid)` lookahead). -/
def wordStartAux (w avoid : List Char) : Option Char → List Char → Bool
  | _, [] => false
  | prev, c :: rest =>
    (okBefore prev && w.isPrefixOf (c :: rest) &&
        (avoid.isEmpty || !containsL avoid ((c :: rest).drop w.length)))
      || wordStartAux w avoid (some c) rest
where
  okBefore : Option Char → Bool
    | none => true
    | some p => ! isWordChar p

/-- `re.search(r"\bmonto|\bimporte(?!.*promedio)|\btotal(?!.*promedio)", s)`. -/
def montoPat (s : String) : Bool :=
  wordStartAux "monto".data [] none s.data
    || wordStartAux "importe".data "promedio".data none s.data
    || wordStartAux "total".data "promedio".data none s.data

/-- `re.search(r"\btotal\s+pa[ií]s\b", s)`. -/
def totalPaisPat (s : String) : Bool :=
  go none s.data
where
  tail : List Char → Bool
    | [] => false
    | c :: rest =>
      if isWs c then tail1 (rest.dropWhile isWs)
      else false
  tail1 : List Char → Bool
    | 'p' :: 'a' :: v :: 's' :: after =>
      (v = 'i' || v = 'í') &&
        (match after with
         | [] => true
         | a :: _ => ! isWordChar a)
    | _ => false
  go : Option Char → List Char → Bool
    | _, [] => false
    | prev, c :: rest =>
      ((match prev with
        | none => true
        | some p => ! isWordChar p) &&
          ("total".data.isPrefixOf (c :: rest) && tail ((c :: rest).drop 5)))
        || go (some c) rest

/-- The context-dependent metric vocabulary of `parse_desempleo`
(`cand_map`). -/
def desempleoCandMap (isAltas isEmision isPromedio : Bool) :
    List (String × List (String → Bool)) :=
  if isAltas then
    [("altas", [altasPat]),
     ("altas_montevideo", [fun c => containsWord c "montevideo"]),
     ("altas_interior", [fun c => containsWord c "interior"]),
     ("altas_despido", [fun c => containsWord c "despido"]),
     ("altas_suspension",
       [fun c => containsWord c "suspensión" || containsWord c "suspension"]),
     ("altas_fin_contrato", [finContratoPat])]
  else if isEmision then
    [("beneficiarios", [fun c => strContains c "beneficiari"]),
     ("altas", [altasPat]),
     ("bajas", [bajasPat])]
  else if isPromedio then
    [("importe_promedio_montevideo", [fun c => containsWord c "montevideo"]),
     ("importe_promedio_interior", [fun c => containsWord c "interior"]),
     ("importe_promedio_total", [fun c => containsWord c "total"])]
  else
    [("beneficiarios", [fun c => strContains c "beneficiari"]),
     ("altas", [altasPat]),
     ("bajas", [bajasPat]),
     ("monto_total", [montoPat])]

/-- The `for newcol, pats in cand_map.items()` loop: skip targets already
populated; resolve the source column by pattern; read it through
`_pick_best_series` and `_to_num`. -/
def candLoop (t : NamedTable) (cl : List (String × String)) :
    List (String × List (String → Bool)) → DOut → Except String DOut
  | [], o => .ok o
  | (nm, pats) :: rest, o =>
    if o.hasCol nm then candLoop t cl rest o
    else
      match findCol pats cl with
      | none => candLoop t cl rest o
      | some src =>
        match selLabel t src with
        | none => .error "KeyError"
        | some s =>
          match toNumPick s with
          | .error e => .error e
          | .ok v => candLoop t cl rest (o.add nm v)

/-- `parse_desempleo`'s mapping stage (lines 660-768), on the cleaned table:
date-column resolution, vocabulary selection from the sheet hint, zone
columns, the special-cased `"Total"` column, the pattern pass, and the
synthesised `altas = montevideo + interior` aggregate.  `sheetHint` is the
already lowered hint string (`str(sheet).lower()` / the sheet-name
attribute). -/
def desempleoMap (t : NamedTable) (sheetHint : String)
    (fechaGuess : Option String) : Except String DOut :=
  let cl := colsLow t
  match resolveFechaCol t cl fechaGuess
      "No encuentro columna de fecha/mes en 'desempleo'" with
  | .error e => .error e
  | .ok fechaCol =>
    let isAltas0 := strContains sheetHint "altas"
    let isEmision := strContains sheetHint "emisión" || strContains sheetHint "emision"
    let isPromedio := strContains sheetHint "promedio"
    let lowCols := t.map (fun c => pyLower c.1)
    let isAltas := isAltas0
      || (!(isAltas0 || isEmision || isPromedio)
            && (lowCols.contains "montevideo" && lowCols.contains "interior"))
    let monteCol := findFirstKey (fun c => containsWord c "montevideo") cl
    let interCol := findFirstKey (fun c => containsWord c "interior") cl
    let hasZona := monteCol.isSome && interCol.isSome
    let zonaStep : Except String DOut :=
      match monteCol, interCol with
      | some mc, some ic =>
        (match selLabel t mc, selLabel t ic with
         | some sm, some si =>
           (match toNumSel sm, toNumSel si with
            | .ok vm, .ok vi =>
              .ok ⟨[], [("altas_montevideo", vm), ("altas_interior", vi)]⟩
            | .error e, _ => .error e
            | _, .error e => .error e)
         | _, _ => .error "KeyError")
      | _, _ => .ok ⟨[], []⟩
    match zonaStep with
    | .error e => .error e
    | .ok o0 =>
      match selLabel t fechaCol with
      | none => .error "KeyError: fecha column"
      | some sf =>
        match pickBestSeries sf with
        | none => .error "IndexError"
        | some fc =>
          let o1 : DOut := { o0 with fecha := fc.map fixExcelSerialDates }
          let totalCol := findFirstKey (fun c => pyStrip c = "total") cl
          let totalStep : Except String DOut :=
            match totalCol with
            | none => .ok o1
            | some tc =>
              if ¬ o1.hasCol "altas" ∧ (isAltas0 ∨ hasZona) then
                (match selLabel t tc with
                 | none => .error "KeyError"
                 | some st =>
                   match toNumSel st with
                   | .error e => .error e
                   | .ok v => .ok (o1.add "altas" v))
              else if isEmision then
                (match selLabel t tc with
                 | none => .error "KeyError"
                 | some st =>
                   match toNumSel st with
                   | .error e => .error e
                   | .ok v => .ok (o1.add "beneficiarios" v))
              else if isPromedio then
                (match selLabel t tc with
                 | none => .error "KeyError"
                 | some st =>
                   match toNumSel st with
                   | .error e => .error e
                   | .ok v => .ok (o1.add "importe_promedio_total" v))
              else .ok o1
          match totalStep with
          | .error e => .error e
          | .ok o2 =>
            match candLoop t cl (desempleoCandMap isAltas isEmision isPromedio) o2 with
            | .error e => .error e
            | .ok o3 =>
              if ¬ o3.hasCol "altas"
                  ∧ o3.hasCol "altas_montevideo" ∧ o3.hasCol "altas_interior" then
                .ok (o3.add "altas"
                  (zipFill0 (o3.getCol "altas_montevideo") (o3.getCol "altas_interior")))
              else .ok o3

/-- The rows of the output frame: the date column zipped with the metric
values at each row position. -/
def DOut.outRows (o : DOut) : List (Option Date × List (Option ℚ)) :=
  (List.range o.fecha.length).map
    (fun i => (o.fecha.getD i none, o.metrics.map (fun m' => m'.2.getD i none)))

/-- `_norm_mes(out, "fecha")` applied to the built output. -/
def DOut.series (o : DOut) : List ((Int × Nat) × List (Option ℚ)) :=
  normMes o.outRows

/-- The validation vocabulary of `parse_desempleo` (`metric_cols`). -/
def desempleoMetricCols : List String :=
  ["beneficiarios", "altas", "bajas", "monto_total", "importe_promedio_total",
   "altas_montevideo", "altas_interior", "altas_despido"]

/-- `parse_desempleo`'s mapping, month normalization and validation: the
emitted canonical series (metric column names in order, plus rows of
month × metric values). -/
def desempleoParse (t : NamedTable) (sheetHint : String)
    (fechaGuess : Option String) :
    Except String (List String × List ((Int × Nat) × List (Option ℚ))) :=
  match desempleoMap t sheetHint fechaGuess with
  | .error e => .error e
  | .ok o =>
    if desempleoMetricCols.all (fun m' => ¬ o.hasCol m') then
      .error "No detecté NINGUNA métrica esperada en 'desempleo'"
    else .ok (o.metrics.map (·.1), o.series)

/-! ### `parse_recaudacion` (lines 819-893) -/

/-- The fixed vocabulary of the collections document. -/
def recaudacionCandMap : List (String × List (String → Bool)) :=
  [("recaudacion_privados", [fun c => containsWord c "privados"]),
   ("recaudacion_publicos",
     [fun c => containsWord c "públicos" || containsWord c "publicos"]),
   ("recaudacion_total", [fun c => containsWord c "total", totalPaisPat])]

/-- The three required collections metrics. -/
def recaudacionRequired : List String :=
  ["recaudacion_privados", "recaudacion_publicos", "recaudacion_total"]

/-- Does some pattern of the collections vocabulary resolve the given
canonical metric on this table? -/
def recaudacionResolves (t : NamedTable) (nm : String) : Bool :=
  recaudacionCandMap.any
    (fun e => e.1 = nm && (findCol e.2 (colsLow t)).isSome)

/-- An error of `parse_recaudacion`: the exception message, plus the missing
metric set written to the log (`required_cols - set(out.columns)`) right
before the validation raise. -/
structure RecErr where
  msg : String
  warnMissing : List String
deriving DecidableEq, Repr

/-- The fixed message of the validation `ValueError` in
`parse_recaudacion`. -/
def recaudacionFailMsg : String :=
  "No detecté todas las métricas esperadas en 'recaudación' (Privados, Públicos, Total)"

/-- `parse_recaudacion`'s mapping stage: date resolution, the fixed pattern
pass (missing columns are only logged), month normalization, and the
validation gate requiring all three metrics. -/
def recaudacionMap (t : NamedTable) (fechaGuess : Option String) :
    Except RecErr (List String × List ((Int × Nat) × List (Option ℚ))) :=
  let cl := colsLow t
  match resolveFechaCol t cl fechaGuess
      "No encuentro columna de fecha/mes en 'recaudación'" with
  | .error e => .error ⟨e, []⟩
  | .ok fechaCol =>
    match selLabel t fechaCol with
    | none => .error ⟨"KeyError: fecha column", []⟩
    | some sf =>
      match pickBestSeries sf with
      | none => .error ⟨"IndexError", []⟩
      | some fc =>
        let o0 : DOut := ⟨fc.map fixExcelSerialDates, []⟩
        match candLoop t cl recaudacionCandMap o0 with
        | .error e => .error ⟨e, []⟩
        | .ok o =>
          if recaudacionRequired.all (fun m' => o.hasCol m') then
            .ok (o.metrics.map (·.1), o.series)
          else
            .error ⟨recaudacionFailMsg,
              recaudacionRequired.filter (fun m' => ¬ o.hasCol m')⟩

/-- Ascending order on month buckets. -/
def monthLeB (a b : Int × Nat) : Bool :=
  a.1 < b.1 || (a.1 = b.1 && a.2 ≤ b.2)

/-- Is a month list ascending? -/
def monthsSortedB : List (Int × Nat) → Bool
  | [] => true
  | [_] => true
  | a :: b :: rest => monthLeB a b && monthsSortedB (b :: rest)

/-- Is a canonical series sorted ascending by month? -/
def sortedB {α : Type} : List ((Int × Nat) × α) → Bool
  | [] => true
  | [_] => true
  | a :: b :: rest => monthLeB a.1 b.1 && sortedB (b :: rest)

/-- A canonical series is sorted ascending by month. -/
def seriesSorted {α : Type} (l : List ((Int × Nat) × α)) : Prop :=
  sortedB l = true

instance {α : Type} (l : List ((Int × Nat) × α)) :
    Decidable (seriesSorted l) :=
  inferInstanceAs (Decidable (sortedB l = true))

/-! ## The spec's header-scoring selection, for comparison

The specification describes the legacy manual read as scoring each of the
first ~30 rows and choosing the highest-scoring one.  The next two
definitions formalize that description, to be compared with `tryXlrdManual`
(which is translated from the source). -/

/-- Modelled from the spec: the header-candidate score of row `i` — the
count of the row's cells that are non-empty and string-typed ("score each of
the first ~30 rows as a header candidate by counting non-empty and
string-typed cells"). -/
def specHeaderScore (sh : XlrdSheet) (i : Nat) : Nat :=
  let row := (List.range sh.ncols).map (cellAt (sh.rows.getD i []))
  (row.filter (fun c =>
    match c with
    | .str s => pyStrip s ≠ ""
    | _ => false)).length

/-- Modelled from the spec: "selects the highest-scoring row within that
window as the header" — the first row of maximal score among the first 30. -/
def specHeaderByScore (sh : XlrdSheet) : Option Nat :=
  go (List.range (min 30 sh.rows.length)) none
where
  go : List Nat → Option (Nat × Nat) → Option Nat
    | [], best => best.map (·.1)
    | i :: rest, best =>
      let s := specHeaderScore sh i
      match best with
      | none => go rest (some (i, s))
      | some (bi, bs) =>
        if bs < s then go rest (some (i, s)) else go rest (some (bi, bs))

/-! ## Concrete inputs used by the witnesses and counterexamples -/

/-- An unemployment table (sheet hint `"emisión"`) whose source rows are in
descending month order; the dates are Excel day serials (45323 = 2024-02-01,
45292 = 2024-01-01), which the serial path resolves. -/
def c1Table : NamedTable :=
  [("Fecha", [.num 45323, .num 45292]),
   ("Beneficiarios", [.num 5, .num 6])]

/-- An xlrd sheet on which the fixed-candidate header search and the spec's
scored header search disagree: row 0 has four non-empty string cells, while
the first tried candidate, row 7, has two and already yields a usable
table. -/
def c3Sheet : XlrdSheet :=
  { ncols := 4,
    rows := [
      [.str "Nombre", .str "Valor", .str "Extra", .str "Otro"],
      [.str "", .str "", .str "", .str ""],
      [.str "", .str "", .str "", .str ""],
      [.str "", .str "", .str "", .str ""],
      [.str "", .str "", .str "", .str ""],
      [.str "", .str "", .str "", .str ""],
      [.str "", .str "", .str "", .str ""],
      [.str "x", .str "y", .str "", .str ""],
      [.str "a1", .str "b1", .str "", .str ""],
      [.str "a2", .str "b2", .str "", .str ""],
      [.str "a3", .str "b3", .str "", .str ""]] }

/-- The table `tryXlrdManual` extracts from `c3Sheet` (header from candidate
row 7). -/
def c3Result : Table :=
  { cols := ["x", "y", "col_2", "col_3"],
    rows := [[.str "a1", .str "b1", .str "", .str ""],
             [.str "a2", .str "b2", .str "", .str ""],
             [.str "a3", .str "b3", .str "", .str ""]] }

/-- Oracles for a plain-text document whose CSV read with `";"` succeeds. -/
def c4Oracles : ReadOracles :=
  { excelOpens := false, sheetNames := [], readExcel := fun _ _ => none,
    xlrdSheet := none, htmlTables := none, bs4Rows := none,
    readCsv := fun sep =>
      if sep = ";" then
        some ⟨["a", "b"], [[.num 1, .num 2], [.num 3, .num 4]]⟩
      else none }

/-- The table the reader returns for `c4Oracles`. -/
def c4Result : Table :=
  ⟨["a", "b"], [[.num 1, .num 2], [.num 3, .num 4]]⟩

/-- A collections table with a resolvable date column, `Públicos` and
`Total` columns, but nothing matching `Privados`. -/
def c5Table : NamedTable :=
  [("Fecha", [.str "ene-24", .str "feb-24"]),
   ("Públicos", [.num 5, .num 6]),
   ("Total", [.num 7, .num 8])]

/-- Display names by which the fixed validation message refers to the three
collections metrics. -/
def metricDisplayNames : List (String × String) :=
  [("recaudacion_privados", "Privados"),
   ("recaudacion_publicos", "Públicos"),
   ("recaudacion_total", "Total")]

/-- The canonical metrics a message string mentions (by display name). -/
def namedInMsg (msg : String) : List String :=
  (metricDisplayNames.filter (fun p => strContains msg p.2)).map (·.1)

/-- An unemployment-subsidy table with both zone columns, no `Total` column
and no column matching `altas`; the dates are Excel day serials for the
first days of January–March 2024. -/
def c6Table : NamedTable :=
  [("Fecha", [.num 45292, .num 45323, .num 45352]),
   ("Montevideo", [.num 10, .null, .num 30]),
   ("Interior", [.num 1, .num 2, .null])]

/-- The output `desempleoMap` produces on `c6Table` with hint `"altas"`. -/
def c6Out : DOut :=
  { fecha := [some ⟨2024, 1, 1⟩, some ⟨2024, 2, 1⟩, some ⟨2024, 3, 1⟩],
    metrics := [("altas_montevideo", [some 10, none, some 30]),
                ("altas_interior", [some 1, some 2, none]),
                ("altas", zipFill0 [some 10, none, some 30] [some 1, some 2, none])] }

/-- A table whose original header looks unnamed and whose row 2 holds the
`"Fecha"` marker. -/
def c7Table : Table :=
  { cols := ["Unnamed: 0", "Unnamed: 1", ""],
    rows := [[.str "junk", .null, .null],
             [.str "stuff", .str "more", .null],
             [.str " Fecha ", .str "Altas", .null],
             [.str "ene-24", .num 5, .null],
             [.str "feb-24", .num 6, .null]] }

/-- An already-numeric column (with an original null). -/
def c8Col : List Cell := [.num 1, .null, .num 3]

/-- A column on which the direct parse fails, triggering the locale
re-parse. -/
def c9Col : List Cell := [.str "-1.234,56", .num 2]

/-- Duplicated-label sub-columns for the pick-best witness. -/
def c10Cols : List (List Cell) := [[.str "a", .num 1], [.num 1, .num 2]]

/-- Dated rows already in ascending month order (with an undated row to be
dropped). -/
def c1SortedRows : List (Option Date × List (Option ℚ)) :=
  [(some ⟨2024, 1, 5⟩, [some 1]), (none, [some 9]),
   (some ⟨2024, 2, 7⟩, [some 2])]

/-! # Theorems -/

/-! ## C2: serial/text date agreement -/

/-- C2 counterexample: the day serial 45139 is 1 August 2023, while the text
`"nov-23"` does not parse at all on the text path (format-less
`pd.to_datetime` coerces the two-digit `"mmm-yy"` form to `NaT`) — the two
representations do **not** yield the same calendar month, contradicting the
claim's concrete instance. -/
theorem C2_counterexample :
    canonMonth (.num 45139) = some (2023, 8)
    ∧ canonMonth (.str "nov-23") = none
    ∧ canonMonth (.num 45139) ≠ canonMonth (.str "nov-23") :=
  ⟨by decide, by decide, by decide⟩

/-- C2 (amended): the serial-number result is preferred whenever the
serial-number path parses at all; the day serial 45139 normalizes to August
2023 while the two-digit text `"ago-23"` — like every `"mmm-yy"` cell —
yields a null date, so the two paths can only agree on a month through the
four-digit `"mmm-yyyy"` text form, as `"ago-2023"` does with serial
45139. -/
theorem C2_serial_preference (c : Cell) (d : Date)
    (h : serialPath c = some d) :
    fixExcelSerialDates c = some d
    ∧ canonMonth (.num 45139) = some (2023, 8)
    ∧ canonMonth (.str "ago-23") = none
    ∧ canonMonth (.str "ago-2023") = canonMonth (.num 45139) := by
  refine ⟨?_, by decide, by decide, by decide⟩
  unfold fixExcelSerialDates
  rw [h]

/-- Witness for `C2_serial_preference` at the serial cell 45139. -/
theorem C2_witness :
    fixExcelSerialDates (.num 45139) = some ⟨2023, 8, 1⟩
    ∧ canonMonth (.num 45139) = some (2023, 8)
    ∧ canonMonth (.str "ago-23") = none
    ∧ canonMonth (.str "ago-2023") = canonMonth (.num 45139) :=
  C2_serial_preference (.num 45139) ⟨2023, 8, 1⟩ (by decide)

/-! ## C8: numeric normalization is the direct parse when no nulls are
introduced -/

/-- C8: when the direct numeric parse introduces no nulls beyond the
column's own, `_to_num` returns the direct parse unchanged; in particular on
a column of numbers and nulls it is the identity on the numeric values. -/
theorem C8_tonum_direct (col : List Cell)
    (h : noneCount (col.map directParse) ≤ nullCount col) :
    toNum col = col.map directParse
    ∧ ((∀ c ∈ col, c = Cell.null ∨ ∃ q, c = Cell.num q) →
        toNum col = col.map (fun c =>
          match c with
          | Cell.num q => some q
          | _ => none)) := by
  have h1 : toNum col = col.map directParse := by
    simp only [toNum]
    rw [if_neg (by omega)]
  refine ⟨h1, fun hall => ?_⟩
  rw [h1]
  apply List.map_congr_left
  intro c hc
  rcases hall c hc with rfl | ⟨q, rfl⟩ <;> rfl

/-- Witness for `C8_tonum_direct` on an already-numeric column. -/
theorem C8_witness :
    toNum c8Col = c8Col.map directParse
    ∧ ((∀ c ∈ c8Col, c = Cell.null ∨ ∃ q, c = Cell.num q) →
        toNum c8Col = c8Col.map (fun c =>
          match c with
          | Cell.num q => some q
          | _ => none)) :=
  C8_tonum_direct c8Col (by decide)

/-! ## C9: the locale re-parse loses signs -/

/-- Values produced by the unsigned-literal parser are non-negative. -/
theorem pyUnsigned_nonneg (cs : List Char) (q : ℚ)
    (h : pyUnsigned cs = some q) : 0 ≤ q := by
  simp only [pyUnsigned] at h
  split at h
  · split at h
    · exact absurd h (by simp)
    · injection h with h; subst h; positivity
  · split at h
    · injection h with h; subst h
      unfold decFrac; positivity
    · exact absurd h (by simp)
  · exact absurd h (by simp)

/-- The locale cleanup removes every hyphen-minus. -/
theorem cleanse_no_dash (s : String) : '-' ∉ (cleanse s).data := by
  unfold cleanse
  intro hmem
  simp only [List.mem_filterMap] at hmem
  obtain ⟨a, _, ha⟩ := hmem
  unfold cleanseChar at ha
  split at ha
  · exact absurd ha (by simp)
  · split at ha
    · simp_all
    · simp_all

/-- Stripping whitespace cannot introduce characters. -/
theorem mem_trimL {c : Char} {l : List Char} (h : c ∈ trimL l) : c ∈ l := by
  unfold trimL at h
  rw [List.mem_reverse] at h
  have h2 := (List.dropWhile_sublist (l := (l.dropWhile isWs).reverse) isWs).mem h
  rw [List.mem_reverse] at h2
  exact (List.dropWhile_sublist isWs).mem h2

/-- A numeric parse of a string with no hyphen-minus is non-negative. -/
theorem pyParseNum_nonneg (s : String) (hnd : '-' ∉ s.data) (q : ℚ)
    (h : pyParseNum s = some q) : 0 ≤ q := by
  unfold pyParseNum at h
  split at h
  case _ rest heq =>
    exfalso
    exact hnd (mem_trimL (heq ▸ List.mem_cons_self '-' rest))
  case _ rest _ => exact pyUnsigned_nonneg _ _ h
  case _ cs _ _ => exact pyUnsigned_nonneg _ _ h

/-- C9: whenever the locale re-parse branch of `_to_num` triggers (the direct
parse raised the null count), every recovered value is non-negative, because
the ASCII hyphen-minus is stripped with the dash variants; in particular
`"-1.234,56"` comes back as 1234.56, losing its sign. -/
theorem C9_reparse_nonneg (col : List Cell)
    (h : nullCount col < noneCount (col.map directParse)) :
    (∀ v ∈ toNum col, ∀ q, v = some q → 0 ≤ q)
    ∧ toNum [Cell.str "-1.234,56"] = [some (decFrac 123456 2)]
    ∧ (decFrac 123456 2 : ℚ) = 1234.56 := by
  refine ⟨?_, rfl, by norm_num [decFrac]⟩
  intro v hv q hq
  subst hq
  simp only [toNum] at hv
  rw [if_pos h] at hv
  simp only [List.mem_map] at hv
  obtain ⟨c, _, hc⟩ := hv
  exact pyParseNum_nonneg _ (cleanse_no_dash _) q hc

/-- Witness for `C9_reparse_nonneg` on a column that triggers the
re-parse. -/
theorem C9_witness :
    (∀ v ∈ toNum c9Col, ∀ q, v = some q → 0 ≤ q)
    ∧ toNum [Cell.str "-1.234,56"] = [some (decFrac 123456 2)]
    ∧ (decFrac 123456 2 : ℚ) = 1234.56 :=
  C9_reparse_nonneg c9Col (by decide)

/-! ## C10: duplicate-label disambiguation -/

/-- Specification of the argmax loop of `_pick_best_series`: the returned
sub-column comes from the candidate list (or is the incoming best) and its
score dominates every candidate and the incoming best. -/
theorem pickMany_spec (cs : List (List Cell)) (b : Option (List Cell))
    (r : List Cell) (h : pickMany cs (scoreOf b) b = some r) :
    (r ∈ cs ∨ b = some r)
    ∧ (∀ c ∈ cs, (numScore c : Int) ≤ (numScore r : Int))
    ∧ (∀ b', b = some b' → (numScore b' : Int) ≤ (numScore r : Int)) := by
  induction cs generalizing b with
  | nil =>
    simp only [pickMany] at h
    refine ⟨Or.inr h, by simp, ?_⟩
    intro b' hb'
    rw [h] at hb'
    injection hb' with hb'
    rw [hb']
  | cons c rest ih =>
    rw [pickMany] at h
    by_cases hlt : scoreOf b < (numScore c : Int)
    · rw [if_pos hlt] at h
      obtain ⟨h1, h2, h3⟩ := ih (some c) h
      have hcr : (numScore c : Int) ≤ (numScore r : Int) := h3 c rfl
      refine ⟨?_, ?_, ?_⟩
      · rcases h1 with h1 | h1
        · exact Or.inl (List.mem_cons_of_mem _ h1)
        · injection h1 with h1
          exact Or.inl (h1 ▸ List.mem_cons_self _ _)
      · intro x hx
        rcases List.mem_cons.mp hx with rfl | hx
        · exact hcr
        · exact h2 x hx
      · intro b' hb'
        subst hb'
        exact le_trans (le_of_lt hlt) hcr
    · rw [if_neg hlt] at h
      obtain ⟨h1, h2, h3⟩ := ih b h
      cases hb : b with
      | none =>
        exfalso
        rw [hb] at hlt
        simp only [scoreOf] at hlt
        omega
      | some b' =>
        subst hb
        have hble : (numScore c : Int) ≤ (numScore b' : Int) := by
          simpa [scoreOf] using le_of_not_lt hlt
        refine ⟨?_, ?_, h3⟩
        · rcases h1 with h1 | h1
          · exact Or.inl (List.mem_cons_of_mem _ h1)
          · exact Or.inr h1
        · intro x hx
          rcases List.mem_cons.mp hx with rfl | hx
          · exact le_trans hble (h3 b' rfl)
          · exact h2 x hx

/-- The argmax loop yields a result whenever it has seen a candidate. -/
theorem pickMany_isSome (cs : List (List Cell)) (b : Option (List Cell))
    (h : cs ≠ [] ∨ b.isSome = true) :
    (pickMany cs (scoreOf b) b).isSome = true := by
  induction cs generalizing b with
  | nil =>
    rcases h with h | h
    · exact absurd rfl h
    · simpa [pickMany] using h
  | cons c rest ih =>
    rw [pickMany]
    by_cases hlt : scoreOf b < (numScore c : Int)
    · rw [if_pos hlt]
      exact ih (some c) (Or.inr rfl)
    · rw [if_neg hlt]
      cases hb : b with
      | none =>
        exfalso
        rw [hb] at hlt
        simp only [scoreOf] at hlt
        omega
      | some b' =>
        subst hb
        exact ih (some b') (Or.inr rfl)

/-- C10: on a duplicated label the mapper uses exactly one of the
sub-columns, one whose count of numerically parseable cells is maximal; a
single-column selection passes through unchanged. -/
theorem C10_pick_best (cs : List (List Cell)) (c0 : List Cell)
    (h : cs ≠ []) :
    (pickBestSeries (.many cs)).isSome = true
    ∧ (∀ r, pickBestSeries (.many cs) = some r →
        r ∈ cs ∧ ∀ c ∈ cs, numScore c ≤ numScore r)
    ∧ pickBestSeries (.one c0) = some c0 := by
  refine ⟨pickMany_isSome cs none (Or.inl h), ?_, rfl⟩
  intro r hr
  obtain ⟨h1, h2, _⟩ := pickMany_spec cs none r hr
  refine ⟨?_, ?_⟩
  · rcases h1 with h1 | h1
    · exact h1
    · exact absurd h1 (by simp)
  · intro c hc
    exact_mod_cast h2 c hc

/-- Witness for `C10_pick_best` on a two-column duplicate selection. -/
theorem C10_witness :
    (pickBestSeries (.many c10Cols)).isSome = true
    ∧ (∀ r, pickBestSeries (.many c10Cols) = some r →
        r ∈ c10Cols ∧ ∀ c ∈ c10Cols, numScore c ≤ numScore r)
    ∧ pickBestSeries (.one [Cell.num 7]) = some [Cell.num 7] :=
  C10_pick_best c10Cols [Cell.num 7] (by decide)

/-! ## C7: header promotion -/

/-- A successful scan returns the first matching row at or after the start
index, inside the fuel window. -/
theorem scanFecha_eq_some (t : Table) :
    ∀ (fuel i k : Nat), scanFecha t i fuel = some k →
      i ≤ k ∧ k < i + fuel ∧ rowHasFecha t k = true
        ∧ ∀ j, i ≤ j → j < k → rowHasFecha t j = false := by
  intro fuel
  induction fuel with
  | zero => intro i k h; exact absurd h (by simp [scanFecha])
  | succ n ih =>
    intro i k h
    rw [scanFecha] at h
    by_cases hf : rowHasFecha t i
    · rw [if_pos hf] at h
      injection h with h
      subst h
      exact ⟨le_refl _, by omega, hf, fun j hj1 hj2 => absurd hj1 (by omega)⟩
    · rw [if_neg hf] at h
      obtain ⟨h1, h2, h3, h4⟩ := ih (i + 1) k h
      refine ⟨by omega, by omega, h3, ?_⟩
      intro j hj1 hj2
      rcases Nat.eq_or_lt_of_le hj1 with rfl | hlt
      · exact Bool.eq_false_iff.mpr (fun hc => hf hc)
      · exact h4 j hlt hj2

/-- A failed scan means no row in the window matches. -/
theorem scanFecha_eq_none (t : Table) :
    ∀ (fuel i : Nat), scanFecha t i fuel = none →
      ∀ j, i ≤ j → j < i + fuel → rowHasFecha t j = false := by
  intro fuel
  induction fuel with
  | zero => intro i _ j hj1 hj2; omega
  | succ n ih =>
    intro i h j hj1 hj2
    rw [scanFecha] at h
    by_cases hf : rowHasFecha t i
    · rw [if_pos hf] at h; exact absurd h (by simp)
    · rw [if_neg hf] at h
      rcases Nat.eq_or_lt_of_le hj1 with rfl | hlt
      · exact Bool.eq_false_iff.mpr (fun hc => hf hc)
      · exact ih (i + 1) h j hlt (by omega)

/-- C7: header promotion succeeds exactly when some row of the scan window
holds a cell equal, case-insensitively after trimming, to `"fecha"`; the
promoted table takes the first such row as header, discards it and the rows
above it, and drops the columns whose remaining values are all null; when no
such row exists, `None` is returned and the caller keeps the original
table. -/
theorem C7_header_promotion (t : Table) (maxScan : Nat) :
    ((promoteFechaHeader t maxScan).isSome
      ↔ ∃ i, i < min maxScan t.rows.length ∧ rowHasFecha t i = true)
    ∧ (∀ t', promoteFechaHeader t maxScan = some t' →
        ∃ i, i < min maxScan t.rows.length ∧ rowHasFecha t i = true
          ∧ (∀ j, j < i → rowHasFecha t j = false)
          ∧ t' = dropEmptyCols ⟨headerFromRow t i, t.rows.drop (i + 1)⟩)
    ∧ (promoteFechaHeader t maxScan = none →
        ∀ i, i < min maxScan t.rows.length → rowHasFecha t i = false) := by
  refine ⟨⟨?_, ?_⟩, ?_, ?_⟩
  · intro hs
    unfold promoteFechaHeader at hs
    cases hscan : scanFecha t 0 (min maxScan t.rows.length) with
    | none => rw [hscan] at hs; exact absurd hs (by simp)
    | some k =>
      obtain ⟨_, h2, h3, _⟩ := scanFecha_eq_some t _ 0 k hscan
      exact ⟨k, by omega, h3⟩
  · rintro ⟨i, hi, hf⟩
    unfold promoteFechaHeader
    cases hscan : scanFecha t 0 (min maxScan t.rows.length) with
    | none =>
      have := scanFecha_eq_none t _ 0 hscan i (by omega) (by omega)
      rw [hf] at this
      exact absurd this (by simp)
    | some k => rfl
  · intro t' ht'
    unfold promoteFechaHeader at ht'
    cases hscan : scanFecha t 0 (min maxScan t.rows.length) with
    | none => rw [hscan] at ht'; exact absurd ht' (by simp)
    | some k =>
      rw [hscan] at ht'
      injection ht' with ht'
      obtain ⟨_, h2, h3, h4⟩ := scanFecha_eq_some t _ 0 k hscan
      exact ⟨k, by omega, h3, fun j hj => h4 j (by omega) hj, ht'.symm⟩
  · intro hn i hi
    unfold promoteFechaHeader at hn
    cases hscan : scanFecha t 0 (min maxScan t.rows.length) with
    | none => exact scanFecha_eq_none t _ 0 hscan i (by omega) (by omega)
    | some k => rw [hscan] at hn; exact absurd hn (by simp)

/-! ## C1: no sorting after month normalization -/

/-- C1 counterexample: an unemployment document whose source rows are in
descending month order is emitted in that same order — the emitted series is
not sorted ascending by month. -/
theorem C1_counterexample :
    desempleoParse c1Table "emisión" none =
      .ok (["beneficiarios"], [((2024, 2), [some 5]), ((2024, 1), [some 6])])
    ∧ ¬ seriesSorted [((2024, 2), [some (5 : ℚ)]), ((2024, 1), [some 6])] :=
  ⟨rfl, by decide⟩

/-- Sortedness of a series only depends on the projected month list. -/
theorem sortedB_eq_map {α : Type} :
    ∀ l : List ((Int × Nat) × α), sortedB l = monthsSortedB (l.map Prod.fst)
  | [] => rfl
  | [_] => rfl
  | a :: b :: rest => by
    rw [show sortedB (a :: b :: rest) = (monthLeB a.1 b.1 && sortedB (b :: rest)) from rfl]
    rw [sortedB_eq_map (b :: rest)]
    rfl

/-- C1 (amended): `_norm_mes` drops the rows without a resolvable date and
keeps the survivors in their input order (their months are the dated input
months, in order); the emitted series is therefore sorted ascending exactly
when the source rows already were — no sorting is performed. -/
theorem C1_order_preservation (rows : List (Option Date × List (Option ℚ)))
    (h : monthsSortedB (rows.filterMap (fun p => p.1.map Date.month)) = true) :
    (normMes rows).map Prod.fst = rows.filterMap (fun p => p.1.map Date.month)
    ∧ seriesSorted (normMes rows) := by
  have hmap : (normMes rows).map Prod.fst
      = rows.filterMap (fun p => p.1.map Date.month) := by
    unfold normMes
    rw [List.map_filterMap]
    congr 1
    funext p
    cases p.1 <;> rfl
  refine ⟨hmap, ?_⟩
  unfold seriesSorted
  rw [sortedB_eq_map, hmap]
  exact h

/-- Witness for `C1_order_preservation` on rows already in ascending
order. -/
theorem C1_witness :
    (normMes c1SortedRows).map Prod.fst
      = c1SortedRows.filterMap (fun p => p.1.map Date.month)
    ∧ seriesSorted (normMes c1SortedRows) :=
  C1_order_preservation c1SortedRows (by decide)

/-! ## C3: the legacy manual read's header selection -/

/-- Characterization of the first-success search: a hit comes from some
position whose earlier positions all miss. -/
theorem firstSome_eq_some {α β : Type} [Inhabited α] (f : α → Option β)
    (l : List α) (b : β) (h : firstSome f l = some b) :
    ∃ k, k < l.length ∧ f (l.getD k default) = some b
      ∧ ∀ j, j < k → f (l.getD j default) = none := by
  induction l with
  | nil => exact absurd h (by simp [firstSome])
  | cons a rest ih =>
    simp only [firstSome] at h
    split at h
    case _ b' heq =>
      injection h with h
      subst h
      exact ⟨0, by simp, by simpa using heq, fun j hj => absurd hj (by omega)⟩
    case _ heq =>
      obtain ⟨k, h1, h2, h3⟩ := ih h
      refine ⟨k + 1, by simpa using h1, by simpa using h2, ?_⟩
      intro j hj
      cases j with
      | zero => simpa using heq
      | succ j' => simpa using h3 j' (by omega)

/-- Post-condition transfer along the first-success search. -/
theorem firstSome_post {α β : Type} (f : α → Option β) (P : β → Prop)
    (hf : ∀ a b, f a = some b → P b) :
    ∀ (l : List α) (b : β), firstSome f l = some b → P b := by
  intro l
  induction l with
  | nil => intro b h; exact absurd h (by simp [firstSome])
  | cons a rest ih =>
    intro b h
    simp only [firstSome] at h
    split at h
    case _ b' heq =>
      injection h with h
      exact h ▸ hf a b' heq
    case _ => exact ih b h

/-- Any table accepted by one header attempt of `_try_xlrd_manual` has at
least two columns and more than one non-empty data row. -/
theorem xlrdAttempt_usable (sh : XlrdSheet) (hdr : Nat) (t : Table)
    (h : xlrdAttempt sh hdr = some t) :
    2 ≤ t.ncols ∧ 1 < t.nonEmptyRows := by
  simp only [xlrdAttempt] at h
  split at h
  · exact absurd h (by simp)
  · split at h
    case isTrue hc1 =>
      split at h
      · split at h
        case _ p hp =>
          split at h
          case isTrue hc2 =>
            injection h with h
            subst h
            exact ⟨hc2.2, hc2.1⟩
          case isFalse =>
            injection h with h
            subst h
            exact ⟨hc1.2, hc1.1⟩
        case _ =>
          injection h with h
          subst h
          exact ⟨hc1.2, hc1.1⟩
      · injection h with h
        subst h
        exact ⟨hc1.2, hc1.1⟩
    case isFalse => exact absurd h (by simp)

/-- C3 counterexample: on `c3Sheet` the code returns the header taken from
candidate row 7, although the highest-scoring row of the first-30 window (in
the sense of the spec's description) is row 0, whose labels differ — the
manual legacy read does not select the highest-scoring row. -/
theorem C3_counterexample :
    tryXlrdManual (some c3Sheet) = some c3Result
    ∧ c3Result.cols = ["x", "y", "col_2", "col_3"]
    ∧ specHeaderByScore c3Sheet = some 0
    ∧ specHeaderScore c3Sheet 7 < specHeaderScore c3Sheet 0
    ∧ c3Result.cols ≠
        ((List.range c3Sheet.ncols).map
          (fun j => pyStrip (cellAt (c3Sheet.rows.getD 0 []) j).pyStr)) :=
  ⟨by decide, by decide, by decide, by decide, by decide⟩

/-- C3 (amended): `_try_xlrd_manual` requires a non-empty sheet with at
least two columns, and returns the result of the **first** candidate header
row — in the fixed order 7, 6, 5, 4, 0, 1, 2, 3 — whose attempt yields a
usable table (≥ 2 columns and > 1 non-empty rows after dropping all-null
columns); earlier candidates in that order all failed.  No scoring of the
first ~30 rows takes place. -/
theorem C3_fixed_candidate_order (sh : XlrdSheet) (t : Table)
    (h : tryXlrdManual (some sh) = some t) :
    sh.rows.isEmpty = false ∧ 2 ≤ sh.ncols
    ∧ 2 ≤ t.ncols ∧ 1 < t.nonEmptyRows
    ∧ ∃ k, k < xlrdHeaderCandidates.length
        ∧ xlrdAttempt sh (xlrdHeaderCandidates.getD k 0) = some t
        ∧ ∀ j, j < k → xlrdAttempt sh (xlrdHeaderCandidates.getD j 0) = none := by
  simp only [tryXlrdManual] at h
  split at h
  next => exact absurd h (by simp)
  next hc =>
    have h1 : sh.rows.isEmpty = false := by
      cases he : sh.rows.isEmpty
      · rfl
      · simp [he] at hc
    have h2 : 2 ≤ sh.ncols := by
      by_contra hlt
      simp only [Nat.not_le] at hlt
      simp [hlt] at hc
    obtain ⟨k, hk1, hk2, hk3⟩ := firstSome_eq_some (xlrdAttempt sh) _ t h
    have hu := xlrdAttempt_usable sh _ t hk2
    exact ⟨h1, h2, hu.1, hu.2, k, hk1, hk2, hk3⟩

/-- Witness for `C3_fixed_candidate_order` at the concrete sheet. -/
theorem C3_witness :
    c3Sheet.rows.isEmpty = false ∧ 2 ≤ c3Sheet.ncols
    ∧ 2 ≤ c3Result.ncols ∧ 1 < c3Result.nonEmptyRows
    ∧ ∃ k, k < xlrdHeaderCandidates.length
        ∧ xlrdAttempt c3Sheet (xlrdHeaderCandidates.getD k 0) = some c3Result
        ∧ ∀ j, j < k →
            xlrdAttempt c3Sheet (xlrdHeaderCandidates.getD j 0) = none :=
  C3_fixed_candidate_order c3Sheet c3Result (by decide)

/-! ## C4: the reader never returns fewer than two columns -/

/-- The accept/best loop of `_try_read_excel` only returns tables with at
least two columns. -/
theorem excelGo_ncols (read : SheetSel → Nat → Option Table) :
    ∀ (pairs : List (SheetSel × Nat)) (best : Option Table) (t : Table),
      excelGo read pairs best = some t → 2 ≤ t.ncols := by
  intro pairs
  induction pairs with
  | nil =>
    intro best t h
    simp only [excelGo] at h
    split at h
    next b =>
      split at h
      next hcond =>
        injection h with h
        subst h
        exact hcond.1
      next => exact absurd h (by simp)
    next => exact absurd h (by simp)
  | cons p rest ih =>
    intro best t h
    obtain ⟨s, hd⟩ := p
    simp only [excelGo] at h
    split at h
    next => exact ih best t h
    next t0 heq =>
      split at h
      next hcond =>
        injection h with h
        subst h
        exact hcond.1
      next => exact ih _ t h

/-- `_try_read_excel` only returns tables with at least two columns. -/
theorem tryReadExcel_ncols (o : ReadOracles) (sheet : Option SheetSel)
    (hint : Option Nat) (t : Table) (h : tryReadExcel o sheet hint = some t) :
    2 ≤ t.ncols := by
  simp only [tryReadExcel] at h
  split at h
  · exact absurd h (by simp)
  · exact excelGo_ncols o.readExcel _ none t h

/-- The usability gate `if rows ≤ 1 or cols < 2 then None else df` only
passes tables with at least two columns. -/
theorem ifAccept_ncols (X t : Table)
    (h : (if (decide (X.nonEmptyRows ≤ 1) || decide (X.ncols < 2)) = true
        then (none : Option Table) else some X) = some t) :
    2 ≤ t.ncols := by
  split at h
  · exact absurd h (by simp)
  · next hcond =>
    injection h with h
    subst h
    simp only [Bool.or_eq_true, not_or, decide_eq_true_eq] at hcond
    omega

/-- The usability gate of the BS4 strategy only passes tables with at least
two columns. -/
theorem ifAcceptE_ncols (X t : Table)
    (h : (if (decide (X.nonEmptyRows ≤ 1) || decide (X.ncols < 2)) = true
        then (Except.ok none : Except String (Option Table))
        else Except.ok (some X)) = .ok (some t)) :
    2 ≤ t.ncols := by
  split at h
  · exact absurd h (by simp)
  · next hcond =>
    injection h with h
    injection h with h
    subst h
    simp only [Bool.or_eq_true, not_or, decide_eq_true_eq] at hcond
    omega

/-- `_try_read_html` only returns tables with at least two columns. -/
theorem tryReadHtml_ncols (tables : Option (List Table)) (t : Table)
    (h : tryReadHtml tables = some t) : 2 ≤ t.ncols := by
  simp only [tryReadHtml] at h
  split at h
  · exact absurd h (by simp)
  · exact absurd h (by simp)
  · split at h
    · exact absurd h (by simp)
    · split at h
      · exact ifAccept_ncols _ _ h
      · exact ifAccept_ncols _ _ h

/-- `_try_bs4_table` only returns tables with at least two columns. -/
theorem tryBs4_ncols (rows : Option (List (List String))) (t : Table)
    (h : tryBs4Table rows = .ok (some t)) : 2 ≤ t.ncols := by
  simp only [tryBs4Table] at h
  split at h
  · exact absurd h (by simp)
  · exact absurd h (by simp)
  · split at h
    · exact absurd h (by simp)
    · split at h
      · exact ifAcceptE_ncols _ _ h
      · exact ifAcceptE_ncols _ _ h

/-- `_try_read_csv` only returns tables with at least two columns. -/
theorem tryReadCsv_ncols (rc : String → Option Table) (t : Table)
    (h : tryReadCsv rc = some t) : 2 ≤ t.ncols := by
  refine firstSome_post _ (fun t => 2 ≤ t.ncols) ?_ _ t h
  intro sep t' h'
  split at h'
  · exact absurd h' (by simp)
  · split at h'
    case isTrue hcond =>
      injection h' with h'
      subst h'
      exact hcond.2
    case isFalse => exact absurd h' (by simp)

/-- The shared HTML → BS4 → CSV cascade only succeeds with ≥ 2 columns when
its exhaustion continuation is an error. -/
theorem htmlCsvCascade_ncols (o : ReadOracles) (e : Except String Table)
    (he : ∀ t, e ≠ .ok t) (t : Table) (h : htmlCsvCascade o e = .ok t) :
    2 ≤ t.ncols := by
  simp only [htmlCsvCascade] at h
  split at h
  case _ df heq =>
    injection h with h
    subst h
    exact tryReadHtml_ncols o.htmlTables _ heq
  case _ =>
    split at h
    · exact absurd h (by simp)
    case _ df heq =>
      injection h with h
      subst h
      exact tryBs4_ncols o.bs4Rows _ heq
    case _ =>
      split at h
      case _ df heq =>
        injection h with h
        subst h
        exact tryReadCsv_ncols o.readCsv _ heq
      case _ => exact absurd h (he t)

/-- C4: for every oracle behaviour, content kind, sheet selector and header
hint, `_read_table_like` either raises or returns a table with at least two
columns — no strategy, including the weak best-scored excel fallback, ever
returns fewer than two. -/
theorem C4_reader_min_columns (o : ReadOracles) (kind : Kind)
    (sheet : Option SheetSel) (hint : Option Nat) (t : Table)
    (h : readTableLike o kind sheet hint = .ok t) : 2 ≤ t.ncols := by
  cases kind with
  | xlsx | xls =>
    simp only [readTableLike] at h
    split at h
    case _ df heq =>
      injection h with h
      subst h
      exact tryReadExcel_ncols o sheet hint _ heq
    case _ =>
      split at h
      case _ df heq =>
        split at h
        case isTrue hc =>
          injection h with h
          subst h
          exact hc
        case isFalse => exact htmlCsvCascade_ncols o _ (by intro t' hne; exact absurd hne (by simp)) t h
      case _ =>
        exact htmlCsvCascade_ncols o _ (by intro t' hne; exact absurd hne (by simp)) t h
  | html =>
    exact htmlCsvCascade_ncols o _ (by intro t' hne; exact absurd hne (by simp)) t h
  | text =>
    simp only [readTableLike] at h
    split at h
    case _ df heq =>
      injection h with h
      subst h
      exact tryReadCsv_ncols o.readCsv _ heq
    case _ => exact absurd h (by simp)
  | unknown =>
    exact htmlCsvCascade_ncols o _ (by intro t' hne; exact absurd hne (by simp)) t h

/-- Witness for `C4_reader_min_columns` on the concrete CSV oracles. -/
theorem C4_witness : 2 ≤ c4Result.ncols :=
  C4_reader_min_columns c4Oracles .text none none c4Result rfl

/-! ## C5: the collections validation error -/

/-- Column membership after an assignment. -/
theorem DOut.hasCol_add (o : DOut) (n1 nm : String) (v : List (Option ℚ)) :
    (o.add n1 v).hasCol nm = (o.hasCol nm || decide (n1 = nm)) := by
  simp [DOut.hasCol, DOut.add]

/-- `_to_num(_pick_best_series(…))` can only fail with an `IndexError`. -/
theorem toNumPick_error (s : Sel) (e : String) (h : toNumPick s = .error e) :
    e = "IndexError" := by
  simp only [toNumPick] at h
  split at h
  · exact absurd h (by simp)
  · injection h with h
    exact h.symm

/-- The date-column resolution fails only with its caller-supplied message
or one of the two modelled pandas exceptions. -/
theorem resolveFechaCol_error (t : NamedTable) (cl : List (String × String))
    (guess : Option String) (failMsg : String) (e : String)
    (h : resolveFechaCol t cl guess failMsg = .error e) :
    e = failMsg ∨ e = "IndexError: no columns"
      ∨ e = "AttributeError: .str on a DataFrame" := by
  simp only [resolveFechaCol] at h
  split at h
  · exact absurd h (by simp)
  · split at h
    · exact absurd h (by simp)
    · split at h
      · injection h with h
        exact Or.inr (Or.inl h.symm)
      · split at h
        · split at h
          · exact absurd h (by simp)
          · injection h with h
            exact Or.inl h.symm
        · injection h with h
          exact Or.inr (Or.inr h.symm)

/-- The pattern-pass loop fails only with the modelled pandas exceptions. -/
theorem candLoop_error_msg (t : NamedTable) (cl : List (String × String)) :
    ∀ (entries : List (String × List (String → Bool))) (o : DOut) (e : String),
      candLoop t cl entries o = .error e →
      e = "KeyError" ∨ e = "IndexError" := by
  intro entries
  induction entries with
  | nil =>
    intro o e h
    exact absurd h (by simp [candLoop])
  | cons ent rest ih =>
    intro o e h
    obtain ⟨n1, pats⟩ := ent
    simp only [candLoop] at h
    split at h
    · exact ih _ _ h
    · split at h
      · exact ih _ _ h
      · split at h
        · injection h with h
          exact Or.inl h.symm
        · split at h
          next e' he' =>
            injection h with h
            exact Or.inr (h ▸ toNumPick_error _ e' he')
          next => exact ih _ _ h

/-- Which columns the pattern-pass loop has populated. -/
theorem candLoop_hasCol (t : NamedTable) (cl : List (String × String)) :
    ∀ (entries : List (String × List (String → Bool))) (o o' : DOut),
      candLoop t cl entries o = .ok o' → ∀ nm : String,
      o'.hasCol nm
        = (o.hasCol nm
            || entries.any (fun en => en.1 = nm && (findCol en.2 cl).isSome)) := by
  intro entries
  induction entries with
  | nil =>
    intro o o' h nm
    simp only [candLoop] at h
    injection h with h
    subst h
    simp
  | cons ent rest ih =>
    intro o o' h nm
    obtain ⟨n1, pats⟩ := ent
    simp only [candLoop] at h
    split at h
    next hc =>
      rw [ih _ _ h nm]
      simp only [List.any_cons]
      by_cases he : n1 = nm
      · subst he
        simp [hc]
      · simp [he]
    next hc =>
      split at h
      next hf =>
        rw [ih _ _ h nm]
        simp [hf]
      next src hf =>
        split at h
        next => exact absurd h (by simp)
        next s hs =>
          split at h
          next => exact absurd h (by simp)
          next v hv =>
            rw [ih _ _ h nm, DOut.hasCol_add]
            simp [hf, Bool.or_assoc]

/-- C5 counterexample: with only `Privados` missing, the raised error's
message is the fixed string naming all three metrics — it does not name
exactly the missing one (which appears only in the logged set). -/
theorem C5_counterexample :
    recaudacionMap c5Table none
      = .error ⟨recaudacionFailMsg, ["recaudacion_privados"]⟩
    ∧ namedInMsg recaudacionFailMsg = recaudacionRequired
    ∧ recaudacionRequired ≠ ["recaudacion_privados"] :=
  ⟨rfl, by decide, by decide⟩

/-- C5 (amended): whenever the collections mapper raises its validation
error, the logged missing set is exactly the set of required metrics no
pattern resolved (and it is non-empty), while the exception message itself
is a fixed string naming all three required metrics, not just the missing
ones. -/
theorem C5_fixed_error_message (t : NamedTable) (guess : Option String)
    (e : RecErr) (h : recaudacionMap t guess = .error e)
    (hm : e.msg = recaudacionFailMsg) :
    e.warnMissing
        = recaudacionRequired.filter (fun nm => ¬ recaudacionResolves t nm)
    ∧ e.warnMissing ≠ []
    ∧ namedInMsg e.msg = recaudacionRequired := by
  simp only [recaudacionMap] at h
  split at h
  next e' hres =>
    injection h with h
    subst h
    simp only [] at hm
    rcases resolveFechaCol_error t _ guess _ e' hres with h1 | h1 | h1 <;>
      · rw [h1] at hm
        exact absurd hm (by decide)
  next fechaCol hres =>
    split at h
    next =>
      injection h with h
      subst h
      exact absurd hm (by decide)
    next sf hsf =>
      split at h
      next =>
        injection h with h
        subst h
        exact absurd hm (by decide)
      next fc hfc =>
        split at h
        next e' hcl =>
          injection h with h
          subst h
          simp only [] at hm
          rcases candLoop_error_msg t _ _ _ e' hcl with h1 | h1 <;>
            · rw [h1] at hm
              exact absurd hm (by decide)
        next o hcl =>
          split at h
          next => exact absurd h (by simp)
          next hval =>
            injection h with h
            subst h
            have hcol : ∀ nm, o.hasCol nm = recaudacionResolves t nm := by
              intro nm
              rw [candLoop_hasCol t _ _ _ _ hcl nm]
              simp [DOut.hasCol, recaudacionResolves]
            refine ⟨?_, ?_, ?_⟩
            · show recaudacionRequired.filter (fun m' => ¬ o.hasCol m')
                  = recaudacionRequired.filter
                      (fun nm => ¬ recaudacionResolves t nm)
              apply List.filter_congr
              intro nm _
              rw [hcol nm]
            · show recaudacionRequired.filter (fun m' => ¬ o.hasCol m') ≠ []
              simp only [List.all_eq_true, not_forall] at hval
              obtain ⟨nm, hnm, hno⟩ := hval
              intro hemp
              have hmem : nm ∈ recaudacionRequired.filter
                  (fun m' => ¬ o.hasCol m') := by
                apply List.mem_filter.mpr
                refine ⟨hnm, ?_⟩
                simpa using hno
              rw [hemp] at hmem
              exact absurd hmem (by simp)
            · show namedInMsg recaudacionFailMsg = recaudacionRequired
              decide

/-- Witness for `C5_fixed_error_message` on the table missing only
`Privados`. -/
theorem C5_witness :
    (⟨recaudacionFailMsg, ["recaudacion_privados"]⟩ : RecErr).warnMissing
        = recaudacionRequired.filter
            (fun nm => ¬ recaudacionResolves c5Table nm)
    ∧ (⟨recaudacionFailMsg, ["recaudacion_privados"]⟩ : RecErr).warnMissing ≠ []
    ∧ namedInMsg (⟨recaudacionFailMsg, ["recaudacion_privados"]⟩ : RecErr).msg
        = recaudacionRequired :=
  C5_fixed_error_message c5Table none
    ⟨recaudacionFailMsg, ["recaudacion_privados"]⟩ rfl rfl

/-! ## C6: the synthesised `altas` zone sum -/

/-- A populated column's lookup succeeds. -/
theorem DOut.find_metrics_isSome (o : DOut) (nm : String)
    (hc : o.hasCol nm = true) :
    (o.metrics.find? (fun m' => m'.1 = nm)).isSome := by
  rw [List.find?_isSome]
  simp only [DOut.hasCol, List.any_eq_true] at hc
  exact hc

/-- A later assignment leaves an already populated column unchanged. -/
theorem DOut.getCol_add_preserve (o : DOut) (n1 nm : String)
    (v : List (Option ℚ)) (hc : o.hasCol nm = true) :
    (o.add n1 v).getCol nm = o.getCol nm := by
  simp only [DOut.getCol, DOut.add, List.find?_append]
  obtain ⟨x, hx⟩ := Option.isSome_iff_exists.mp (o.find_metrics_isSome nm hc)
  rw [hx]
  rfl

/-- Assigning a fresh column makes its lookup return the assigned values. -/
theorem DOut.getCol_add_new (o : DOut) (nm : String) (v : List (Option ℚ))
    (hc : o.hasCol nm = false) : (o.add nm v).getCol nm = v := by
  simp only [DOut.getCol, DOut.add, List.find?_append]
  have hnone : o.metrics.find? (fun m' => m'.1 = nm) = none := by
    rw [List.find?_eq_none]
    intro x hx hpx
    have hcc : o.hasCol nm = true := by
      simp only [DOut.hasCol, List.any_eq_true]
      exact ⟨x, hx, hpx⟩
    rw [hc] at hcc
    exact absurd hcc (by simp)
  rw [hnone]
  simp [List.find?]

/-- The pattern-pass loop never modifies an already populated column. -/
theorem candLoop_getCol (t : NamedTable) (cl : List (String × String)) :
    ∀ (entries : List (String × List (String → Bool))) (o o' : DOut),
      candLoop t cl entries o = .ok o' → ∀ nm : String,
      o.hasCol nm = true → o'.getCol nm = o.getCol nm := by
  intro entries
  induction entries with
  | nil =>
    intro o o' h nm hc
    simp only [candLoop] at h
    injection h with h
    subst h
    rfl
  | cons ent rest ih =>
    intro o o' h nm hc
    obtain ⟨n1, pats⟩ := ent
    simp only [candLoop] at h
    split at h
    next => exact ih _ _ h nm hc
    next =>
      split at h
      next => exact ih _ _ h nm hc
      next src hf =>
        split at h
        next => exact absurd h (by simp)
        next s hs =>
          split at h
          next => exact absurd h (by simp)
          next v hv =>
            rw [ih _ _ h nm (by rw [DOut.hasCol_add, hc]; simp)]
            exact DOut.getCol_add_preserve o n1 nm v hc

/-- C6: on the unemployment document with sheet hint containing `"altas"`,
both zone columns present, no literal `"total"` column and no column
matching the `altas` pattern, the mapper emits the two zone metrics as the
numeric normalization of the zone columns and synthesizes `altas` as their
elementwise sum with nulls read as 0. -/
theorem C6_zone_sum (t : NamedTable) (sheetHint : String)
    (guess : Option String) (o : DOut) (mlab ilab : String)
    (mv iv : List Cell)
    (hHint : strContains sheetHint "altas" = true)
    (hm : findFirstKey (fun c => containsWord c "montevideo") (colsLow t)
        = some mlab)
    (hi : findFirstKey (fun c => containsWord c "interior") (colsLow t)
        = some ilab)
    (hms : selectByLabel t mlab = [mv])
    (his : selectByLabel t ilab = [iv])
    (hT : findFirstKey (fun c => pyStrip c = "total") (colsLow t) = none)
    (hA : findCol [altasPat] (colsLow t) = none)
    (ho : desempleoMap t sheetHint guess = .ok o) :
    o.getCol "altas_montevideo" = toNum mv
    ∧ o.getCol "altas_interior" = toNum iv
    ∧ o.hasCol "altas" = true
    ∧ o.getCol "altas" = zipFill0 (toNum mv) (toNum iv) := by
  have hms' : selLabel t mlab = some (.one mv) := by
    simp [selLabel, hms]
  have his' : selLabel t ilab = some (.one iv) := by
    simp [selLabel, his]
  simp only [desempleoMap, hm, hi, hHint, hT, hms', his', toNumSel,
    Bool.true_or, desempleoCandMap, eq_self_iff_true, if_true] at ho
  split at ho
  next => exact absurd ho (by simp)
  next fechaCol hres =>
    split at ho
    next => exact absurd ho (by simp)
    next sf hsf =>
      split at ho
      next => exact absurd ho (by simp)
      next fc hfc =>
        split at ho
        next => exact absurd ho (by simp)
        next o3 hcl =>
          have h0m : (⟨fc.map fixExcelSerialDates,
              [("altas_montevideo", toNum mv),
               ("altas_interior", toNum iv)]⟩ : DOut).hasCol
                "altas_montevideo" = true := by
            simp [DOut.hasCol]
          have h0i : (⟨fc.map fixExcelSerialDates,
              [("altas_montevideo", toNum mv),
               ("altas_interior", toNum iv)]⟩ : DOut).hasCol
                "altas_interior" = true := by
            simp [DOut.hasCol]
          have hAM : o3.hasCol "altas_montevideo" = true := by
            rw [candLoop_hasCol t _ _ _ _ hcl]
            rw [h0m]
            simp
          have hAI : o3.hasCol "altas_interior" = true := by
            rw [candLoop_hasCol t _ _ _ _ hcl]
            rw [h0i]
            simp
          have hA3 : o3.hasCol "altas" = false := by
            rw [candLoop_hasCol t _ _ _ _ hcl]
            simp [DOut.hasCol, hA]
          have hGM : o3.getCol "altas_montevideo" = toNum mv := by
            rw [candLoop_getCol t _ _ _ _ hcl _ h0m]
            simp [DOut.getCol, List.find?]
          have hGI : o3.getCol "altas_interior" = toNum iv := by
            rw [candLoop_getCol t _ _ _ _ hcl _ h0i]
            simp [DOut.getCol, List.find?]
          have hcond : ¬ o3.hasCol "altas" = true
              ∧ o3.hasCol "altas_montevideo" = true
              ∧ o3.hasCol "altas_interior" = true :=
            ⟨by simp [hA3], hAM, hAI⟩
          rw [if_pos hcond] at ho
          injection ho with ho
          subst ho
          refine ⟨?_, ?_, ?_, ?_⟩
          · rw [DOut.getCol_add_preserve _ _ _ _ hAM, hGM]
          · rw [DOut.getCol_add_preserve _ _ _ _ hAI, hGI]
          · rw [DOut.hasCol_add]
            simp
          · rw [DOut.getCol_add_new _ _ _ hA3, hGM, hGI]

/-- Witness for `C6_zone_sum` on the concrete zone table. -/
theorem C6_witness :
    c6Out.getCol "altas_montevideo"
        = toNum [Cell.num 10, Cell.null, Cell.num 30]
    ∧ c6Out.getCol "altas_interior"
        = toNum [Cell.num 1, Cell.num 2, Cell.null]
    ∧ c6Out.hasCol "altas" = true
    ∧ c6Out.getCol "altas"
        = zipFill0 (toNum [Cell.num 10, Cell.null, Cell.num 30])
            (toNum [Cell.num 1, Cell.num 2, Cell.null]) :=
  C6_zone_sum c6Table "altas" none c6Out "Montevideo" "Interior"
    [Cell.num 10, Cell.null, Cell.num 30] [Cell.num 1, Cell.num 2, Cell.null]
    (by decide) (by decide) (by decide) (by decide) (by decide) (by decide)
    (by decide) rfl

end BPS
